import Mathlib

/-!
Shallow embedding of the spatial aggregation engine of the Urban-Insight
repository (src/utils/communityStats.js and src/utils/loadGeoJSON.js),
together with proofs about the claims of its specification.

JavaScript numbers are modelled as rationals; none of the verified claims
depends on floating-point rounding.  Coordinate data, which the source
accesses dynamically, is modelled by the tree type CoordVal (a JSON value
that is either a number or an array).  The OpenLayers reprojection
fromLonLat (ol/proj, EPSG:4326 to EPSG:3857) is a strictly monotone,
coordinate-separable homeomorphism; it is modelled as the identity map,
which does not affect any verified claim.  Exceptions of the JavaScript
source are modelled with Except, and each try/catch of the source appears
as a match on that Except value.
-/

namespace UrbanInsight

/-- A JSON coordinate value: the source indexes into geometry.coordinates
dynamically, so the coordinate payload is kept as a tree of numbers and
arrays. -/
inductive CoordVal where
  | num (q : ℚ)
  | arr (l : List CoordVal)

/-- JavaScript truthiness of a coordinate value: the number 0 is falsy,
every array (empty or not) is truthy. -/
def CoordVal.truthy : CoordVal → Bool
  | .num q => q != 0
  | .arr _ => true

/-- JavaScript indexing v[i]: undefined (none) when v is a number or the
index is out of range. -/
def CoordVal.idx : CoordVal → Nat → Option CoordVal
  | .num _, _ => none
  | .arr l, i => l.get? i

/-- JavaScript property access v.length: undefined on numbers. -/
def CoordVal.jsLength : CoordVal → Option Nat
  | .num _ => none
  | .arr l => some l.length

def CoordVal.asNum : CoordVal → Option ℚ
  | .num q => some q
  | .arr _ => none

/-- The JavaScript comparison v.length >= n, which is false when v.length
is undefined. -/
def CoordVal.jsLenGe (c : CoordVal) (n : Nat) : Bool :=
  match c.jsLength with
  | some m => n ≤ m
  | none => false

/-- The JavaScript comparison v.length < n, false when v.length is
undefined. -/
def CoordVal.jsLenLt (c : CoordVal) (n : Nat) : Bool :=
  match c.jsLength with
  | some m => m < n
  | none => false

/-- Array destructuring const [a, b] = v.  A number is not iterable, so
destructuring one throws (Except.error); missing entries are undefined. -/
def destructurePair : CoordVal → Except Unit (Option CoordVal × Option CoordVal)
  | .num _ => .error ()
  | .arr l => .ok (l.get? 0, l.get? 1)

/-- A GeoJSON geometry object as the source observes it: a type tag and a
coordinates payload, either possibly absent. -/
structure Geometry where
  type : Option String
  coordinates : Option CoordVal

structure Properties where
  id : Option ℚ := none
  name : Option String := none
  comm_code : Option String := none
  sector : Option String := none
  crime_by_community_total_crime : Option ℚ := none
  flow_rate : Option ℚ := none

structure Feature where
  properties : Properties
  geometry : Option Geometry

structure FeatureCollection where
  features : List Feature

abbrev Pt := ℚ × ℚ

/-- ol/proj fromLonLat (EPSG:4326 to EPSG:3857), modelled as the identity
map (see the header note). -/
def fromLonLat (c : Pt) : Pt := c

/-- ol/proj toLonLat, the inverse reprojection, likewise the identity. -/
def toLonLat (c : Pt) : Pt := c

/-- A parsed OpenLayers geometry as returned by GeoJSON.readGeometry. -/
inductive OLGeom where
  | point (p : Pt)
  | lineString (ps : List Pt)
  | multiLineString (ls : List (List Pt))
  | polygon (rings : List (List Pt))
  | multiPolygon (polys : List (List (List Pt)))

/-- A position: an array whose first two entries are numbers. -/
def asPt (c : CoordVal) : Option Pt :=
  match (c.idx 0).bind CoordVal.asNum, (c.idx 1).bind CoordVal.asNum with
  | some x, some y => some (x, y)
  | _, _ => none

def ptsOf (c : CoordVal) : List Pt :=
  match c with
  | .num _ => []
  | .arr l => l.filterMap asPt

def ringsOf (c : CoordVal) : List (List Pt) :=
  match c with
  | .num _ => []
  | .arr l => l.map ptsOf

def polysOf (c : CoordVal) : List (List (List Pt)) :=
  match c with
  | .num _ => []
  | .arr l => l.map ringsOf

/-- GeoJSON.readGeometry of ol/format with the EPSG:4326 to EPSG:3857
transform: it throws on an object whose type tag is not a recognized
GeoJSON geometry type (such as the wrapper object built at
communityStats.js:458) and on a missing coordinates payload (the geometry
constructors dereference coordinates); recognized types with a coordinates
payload are read leniently, ill-shaped entries being dropped, which
matches the permissive flattening of ol and is not exercised by any
verified claim. -/
def readGeometry (g : Geometry) : Except Unit OLGeom :=
  match g.type, g.coordinates with
  | some "Point", some c =>
    match asPt c with
    | some p => .ok (.point (fromLonLat p))
    | none => .error ()
  | some "LineString", some c => .ok (.lineString ((ptsOf c).map fromLonLat))
  | some "MultiLineString", some c => .ok (.multiLineString ((ringsOf c).map (fun r => r.map fromLonLat)))
  | some "Polygon", some c => .ok (.polygon ((ringsOf c).map (fun r => r.map fromLonLat)))
  | some "MultiPolygon", some c => .ok (.multiPolygon ((polysOf c).map (fun po => po.map (fun r => r.map fromLonLat))))
  | _, _ => .error ()

/-- One edge step of the winding-number algorithm of
ol/geom/flat/contains.js (linearRingContainsXY). -/
def windingStep (x y x1 y1 x2 y2 : ℚ) (wn : Int) : Int :=
  if y1 ≤ y ∧ y < y2 then
    if 0 < (x2 - x1) * (y - y1) - (x - x1) * (y2 - y1) then wn + 1 else wn
  else if y < y1 ∧ y2 ≤ y then
    if (x2 - x1) * (y - y1) - (x - x1) * (y2 - y1) < 0 then wn - 1 else wn
  else wn

/-- linearRingContainsXY of ol/geom/flat/contains.js: a winding-number ray
cast whose previous vertex starts at the last vertex of the ring. -/
def linearRingContainsXY (ring : List Pt) (x y : ℚ) : Bool :=
  match ring.getLast? with
  | none => false
  | some p0 =>
    (ring.foldl (fun acc p2 => (p2, windingStep x y acc.1.1 acc.1.2 p2.1 p2.2 acc.2)) (p0, (0 : Int))).2 != 0

/-- linearRingsContainsXY of ol: inside the outer ring and in no hole. -/
def linearRingsContainsXY (rings : List (List Pt)) (x y : ℚ) : Bool :=
  match rings with
  | [] => false
  | outer :: holes => linearRingContainsXY outer x y && holes.all (fun h => !linearRingContainsXY h x y)

/-- Polygon.intersectsCoordinate of ol (ring orientation does not change
the nonzero test on the winding number). -/
def polygonIntersectsCoordinate (rings : List (List Pt)) (p : Pt) : Bool :=
  linearRingsContainsXY rings p.1 p.2

/-- The per-point containment dispatch that the source inlines both at
communityStats.js:149-156 and 258-267: Polygon and MultiPolygon get
intersectsCoordinate, every other parsed geometry type yields false. -/
def olPointTest (og : OLGeom) (lon lat : ℚ) : Bool :=
  match og with
  | .polygon rings => polygonIntersectsCoordinate rings (fromLonLat (lon, lat))
  | .multiPolygon polys => polys.any (fun poly => polygonIntersectsCoordinate poly (fromLonLat (lon, lat)))
  | _ => false

/-- Element access ring[i] followed by const [xi, yi] = ring[i] or [] in
the ray-casting fallback (communityStats.js:279-280): a nonzero numeric
entry is not iterable and throws; undefined and 0 destructure via the
empty array. -/
def ringElemPair (ring : CoordVal) (i : Nat) : Except Unit (Option ℚ × Option ℚ) :=
  match ring.idx i with
  | none => .ok (none, none)
  | some (.num q) => if q = 0 then .ok (none, none) else .error ()
  | some (.arr l) => .ok ((l.get? 0).bind CoordVal.asNum, (l.get? 1).bind CoordVal.asNum)

/-- The even-odd toggle of the fallback checkRing (communityStats.js:282-283).
The source checks typeof only for xi and yi; a non-numeric xj or yj poisons
the arithmetic with NaN and makes the comparison false, which coincides
with the none cases here. -/
def toggleStep (x y xi yi : ℚ) (xj yj : Option ℚ) (inside : Bool) : Bool :=
  match xj, yj with
  | some xj0, some yj0 =>
    if (decide (y < yi) != decide (y < yj0)) && decide (x < (xj0 - xi) * (y - yi) / (yj0 - yi) + xi) then !inside else inside
  | _, _ => inside

/-- The checkRing closure of the fallback (communityStats.js:276-285),
threading the mutable inside flag; a throw inside the loop escapes to the
enclosing catch. -/
def checkRing (x y : ℚ) (inside : Bool) (ring : CoordVal) : Except Unit Bool :=
  if !ring.truthy || ring.jsLenLt 3 then .ok inside
  else
    match ring with
    | .num _ => .ok inside
    | .arr l =>
      (List.range l.length).foldlM (fun ins i =>
        match ringElemPair (.arr l) i with
        | .error e => .error e
        | .ok ei =>
          match ringElemPair (.arr l) (if i = 0 then l.length - 1 else i - 1) with
          | .error e => .error e
          | .ok ej =>
            match ei.1, ei.2 with
            | some xi, some yi => .ok (toggleStep x y xi yi ej.1 ej.2 ins)
            | _, _ => .ok ins) inside

/-- The catch-block fallback of isPointInCommunity
(communityStats.js:269-300): an even-odd ray cast over the raw coordinate
arrays; its own inner catch turns any throw into false.  When x or y is
not a number every toggle comparison is false and every branch returns
false, so the computation is cut short to false (observationally equal,
throws included, since a thrown error would also give false). -/
def fallbackPointCheck (p : CoordVal) (g : Geometry) : Bool :=
  match g.coordinates with
  | none => false
  | some coords =>
    if !coords.truthy then false
    else
      match destructurePair p with
      | .error _ => false
      | .ok pr =>
        match pr.1.bind CoordVal.asNum, pr.2.bind CoordVal.asNum with
        | some x, some y =>
          if g.type == some "Polygon" then
            match coords.idx 0 with
            | some ring =>
              if ring.truthy then
                match checkRing x y false ring with
                | .ok b => b
                | .error _ => false
              else false
            | none => false
          else if g.type == some "MultiPolygon" then
            match (coords.idx 0).bind (fun r => r.idx 0) with
            | some inner =>
              if inner.truthy then
                match coords with
                | .arr polys =>
                  match polys.foldlM (fun ins poly =>
                      match poly.idx 0 with
                      | some r0 => if r0.truthy then checkRing x y ins r0 else pure ins
                      | none => pure ins) false with
                  | .ok b => b
                  | .error _ => false
                | .num _ => false
              else false
            | none => false
          else false
        | _, _ => false

/-- The try-block of isPointInCommunity (communityStats.js:243-267):
destructure the point, require numeric lon and lat, reproject, parse the
community geometry (a throw falls to the catch fallback) and dispatch on
the parsed type. -/
def tryPointMain (p : CoordVal) (g : Geometry) : Except Unit Bool :=
  match destructurePair p with
  | .error e => .error e
  | .ok pr =>
    match pr.1.bind CoordVal.asNum, pr.2.bind CoordVal.asNum with
    | some lon, some lat =>
      match readGeometry g with
      | .error e => .error e
      | .ok og => .ok (olPointTest og lon lat)
    | _, _ => .ok false

/-- isPointInCommunity (communityStats.js:240-301). -/
def isPointInCommunity (point : Option CoordVal) (communityGeometry : Option Geometry) : Bool :=
  match point, communityGeometry with
  | some p, some g =>
    if p.truthy then
      match tryPointMain p g with
      | .ok b => b
      | .error _ => fallbackPointCheck p g
    else false
  | _, _ => false

/-- The second argument built at the flood-risk call of the full
aggregation (communityStats.js:458) is the fresh wrapper object around the
flood-zone geometry rather than the geometry itself; as observed by
isPointInCommunity it has neither a type tag nor a coordinates field. -/
def wrappedGeometryArg : Geometry := { type := none, coordinates := none }

/-- The test Array.isArray(v[0]) and typeof v[0][0] === number that selects
the LineString branch of isLineInCommunity (communityStats.js:119). -/
def isNumHeaded (c : CoordVal) : Bool :=
  match c.idx 0 with
  | some first =>
    match first with
    | .arr l =>
      match l.get? 0 with
      | some (.num _) => true
      | _ => false
    | .num _ => false
  | none => false

/-- The test Array.isArray(v[0]) and Array.isArray(v[0][0]) that selects
the MultiLineString branch (communityStats.js:128). -/
def isArrHeaded (c : CoordVal) : Bool :=
  match c.idx 0 with
  | some first =>
    match first with
    | .arr l =>
      match l.get? 0 with
      | some (.arr _) => true
      | _ => false
    | .num _ => false
  | none => false

/-- The push sequence of one line string (communityStats.js:121-127 and
131-137): first vertex, the vertex at floor(length over 2) when the length
exceeds 2, and the last vertex. -/
def sampleLineString (m : List CoordVal) : List CoordVal :=
  match m.get? 0, m.getLast? with
  | some f, some lst =>
    [f] ++
      (if 2 < m.length then
        match m.get? (m.length / 2) with
        | some mid => [mid]
        | none => []
      else []) ++ [lst]
  | _, _ => []

/-- The pointsToCheck array built by isLineInCommunity
(communityStats.js:117-139). -/
def lineSamplePoints (lineCoords : CoordVal) : List CoordVal :=
  match lineCoords with
  | .num _ => []
  | .arr l =>
    if isNumHeaded (.arr l) then sampleLineString l
    else if isArrHeaded (.arr l) then
      (l.map (fun ls =>
        match ls with
        | .arr m => if 0 < m.length then sampleLineString m else []
        | .num _ => [])).flatten
    else []

/-- The some-callback over the sampled points (communityStats.js:142-157),
with a throw on destructuring a numeric entry escaping to the enclosing
catch; the callback skips falsy points and points whose length is below 2
(undefined lengths compare false and fall through to the destructuring). -/
def lineSomeCheck (og : OLGeom) : List CoordVal → Except Unit Bool
  | [] => .ok false
  | p :: ps =>
    if !p.truthy then lineSomeCheck og ps
    else if p.jsLenLt 2 then lineSomeCheck og ps
    else
      match destructurePair p with
      | .error e => .error e
      | .ok pr =>
        match pr.1.bind CoordVal.asNum, pr.2.bind CoordVal.asNum with
        | some lon, some lat => if olPointTest og lon lat then .ok true else lineSomeCheck og ps
        | _, _ => lineSomeCheck og ps

/-- The catch fallback of isLineInCommunity (communityStats.js:158-174):
test only the first point of the line with isPointInCommunity. -/
def lineFallback (lineCoords : CoordVal) (g : Geometry) : Bool :=
  match lineCoords.jsLength with
  | none => false
  | some n =>
    if n = 0 then false
    else
      match
        (if isNumHeaded lineCoords then lineCoords.idx 0
         else if isArrHeaded lineCoords then (lineCoords.idx 0).bind (fun f => f.idx 0)
         else none)
      with
      | some fp => if fp.truthy && fp.jsLenGe 2 then isPointInCommunity (some fp) (some g) else false
      | none => false

/-- isLineInCommunity (communityStats.js:103-175). -/
def isLineInCommunity (lineCoords : Option CoordVal) (communityGeometry : Option Geometry) : Bool :=
  match lineCoords, communityGeometry with
  | some c, some g =>
    if !c.truthy then false
    else
      match readGeometry g with
      | .error _ => lineFallback c g
      | .ok og =>
        match lineSomeCheck og (lineSamplePoints c) with
        | .ok b => b
        | .error _ => lineFallback c g
  | _, _ => false

/-- All points of a parsed geometry, used for its extent. -/
def OLGeom.allPts : OLGeom → List Pt
  | .point p => [p]
  | .lineString ps => ps
  | .multiLineString ls => ls.flatten
  | .polygon rings => rings.flatten
  | .multiPolygon polys => (polys.map List.flatten).flatten

/-- The extent [minX, minY, maxX, maxY] of a parsed geometry; none stands
for the empty extent of ol (infinities), which overlaps nothing and whose
center is the NaN point that no containment test accepts. -/
def OLGeom.extent (og : OLGeom) : Option (ℚ × ℚ × ℚ × ℚ) :=
  match og.allPts with
  | [] => none
  | p :: ps =>
    some (ps.foldl (fun acc q =>
      (min acc.1 q.1, min acc.2.1 q.2, max acc.2.2.1 q.1, max acc.2.2.2 q.2))
      (p.1, p.2, p.1, p.2))

/-- The extent-overlap test of communityStats.js:691-696; an empty extent
on either side makes the negated disjunction false, exactly as the
infinite empty extent of ol does. -/
def extentsOverlapJS (a b : Option (ℚ × ℚ × ℚ × ℚ)) : Bool :=
  match a, b with
  | some (ax0, ay0, ax1, ay1), some (bx0, by0, bx1, by1) =>
    !(decide (ax1 < bx0) || decide (ax0 > bx1) || decide (ay1 < by0) || decide (ay0 > by1))
  | _, _ => false

/-- getCommunityCentroid (communityStats.js:202-235): the bounding-box
center of the parsed geometry as a two-entry coordinate array.  The empty
geometry yields the NaN point of ol, modelled as none: it is never equal
to a coordinate, satisfies no containment test and is not pushed, which is
observationally equal.  When parsing throws, the fallback returns the raw
first coordinate. -/
def getCommunityCentroid (g? : Option Geometry) : Option CoordVal :=
  match g? with
  | none => none
  | some g =>
    match g.coordinates with
    | none => none
    | some coords =>
      if !coords.truthy then none
      else
        match readGeometry g with
        | .ok og =>
          match og.extent with
          | some (x0, y0, x1, y1) =>
            some (.arr [.num (toLonLat ((x0 + x1) / 2, (y0 + y1) / 2)).1,
                        .num (toLonLat ((x0 + x1) / 2, (y0 + y1) / 2)).2])
          | none => none
        | .error _ =>
          if g.type == some "Polygon" then
            match (coords.idx 0).bind (fun r => r.idx 0) with
            | some fp => if fp.truthy then some fp else none
            | none => none
          else if g.type == some "MultiPolygon" then
            match ((coords.idx 0).bind (fun r => r.idx 0)).bind (fun r => r.idx 0) with
            | some fp => if fp.truthy then some fp else none
            | none => none
          else none

/-- The keys of the module-level dataCache object (communityStats.js:7-16). -/
inductive CacheKey where
  | communities
  | trafficIncidents
  | parks
  | trafficSignals
  | lrtStops
  | lrtLines
  | floodZones
  | majorRoads
deriving DecidableEq, BEq

/-- The module-level dataCache object of communityStats.js:7-16, every
field initially null. -/
structure DataCache where
  communities : Option FeatureCollection := none
  trafficIncidents : Option FeatureCollection := none
  parks : Option FeatureCollection := none
  trafficSignals : Option FeatureCollection := none
  lrtStops : Option FeatureCollection := none
  lrtLines : Option FeatureCollection := none
  floodZones : Option FeatureCollection := none
  majorRoads : Option FeatureCollection := none

/-- Dynamic field read dataCache[cacheKey]. -/
def DataCache.get (d : DataCache) : CacheKey → Option FeatureCollection
  | .communities => d.communities
  | .trafficIncidents => d.trafficIncidents
  | .parks => d.parks
  | .trafficSignals => d.trafficSignals
  | .lrtStops => d.lrtStops
  | .lrtLines => d.lrtLines
  | .floodZones => d.floodZones
  | .majorRoads => d.majorRoads

/-- Dynamic field write dataCache[cacheKey] = v. -/
def DataCache.set (d : DataCache) : CacheKey → Option FeatureCollection → DataCache
  | .communities, v => { d with communities := v }
  | .trafficIncidents, v => { d with trafficIncidents := v }
  | .parks, v => { d with parks := v }
  | .trafficSignals, v => { d with trafficSignals := v }
  | .lrtStops, v => { d with lrtStops := v }
  | .lrtLines, v => { d with lrtLines := v }
  | .floodZones, v => { d with floodZones := v }
  | .majorRoads, v => { d with majorRoads := v }

/-- The immutable fetch environment of one session: the parsed collection
each URL resolves to, absent entries standing for fetch or parse failures;
the data is static for the duration of the session. -/
structure World where
  files : List (String × FeatureCollection)

/-- The mutable module state: the URL-keyed cache of loadGeoJSON.js:4, the
field cache of communityStats.js:7, and a count of the fetch calls
issued. -/
structure Session where
  geoJsonCache : List (String × FeatureCollection)
  dataCache : DataCache
  fetches : Nat

/-- loadGeoJSON (loadGeoJSON.js:11-32): answer from the URL cache when
present; otherwise fetch, cache a success, and turn any failure into null
without caching. -/
def loadGeoJSON (w : World) (s : Session) (url : String) : Option FeatureCollection × Session :=
  match s.geoJsonCache.lookup url with
  | some data => (some data, s)
  | none =>
    match w.files.lookup url with
    | some data =>
      (some data, { s with geoJsonCache := (url, data) :: s.geoJsonCache, fetches := s.fetches + 1 })
    | none => (none, { s with fetches := s.fetches + 1 })

/-- loadDataFile (communityStats.js:44-57): answer from the field cache
when present; otherwise delegate to loadGeoJSON and cache a success. -/
def loadDataFile (w : World) (s : Session) (filePath : String) (cacheKey : CacheKey) :
    Option FeatureCollection × Session :=
  match s.dataCache.get cacheKey with
  | some v => (some v, s)
  | none =>
    match loadGeoJSON w s filePath with
    | (some data, s1) => (some data, { s1 with dataCache := s1.dataCache.set cacheKey (some data) })
    | (none, s1) => (none, s1)

/-- loadCommunitiesOnly (communityStats.js:26-39); on a failed load the
cache field is assigned null and null is returned. -/
def loadCommunitiesOnly (w : World) (s : Session) : Option FeatureCollection × Session :=
  match s.dataCache.communities with
  | some c => (some c, s)
  | none =>
    match loadGeoJSON w s "/data/community-borders.json" with
    | (r, s1) => (r, { s1 with dataCache := s1.dataCache.set .communities r })

/-- One conditional lazy load of loadAllData (communityStats.js:70-91):
when the key is requested and its field is still empty, loadDataFile runs
and its result is assigned to the field. -/
def loadIf (w : World) (requiredFiles : List CacheKey) (key : CacheKey) (path : String)
    (s : Session) : Session :=
  if requiredFiles.contains key && (s.dataCache.get key).isNone then
    match loadDataFile w s path key with
    | (r, s1) => { s1 with dataCache := s1.dataCache.set key r }
  else s

/-- loadAllData (communityStats.js:62-98): communities always, the other
collections only when requested and not yet cached; the final cache object
is returned. -/
def loadAllData (w : World) (s : Session) (requiredFiles : List CacheKey) : DataCache × Session :=
  let s1 :=
    match s.dataCache.communities with
    | some _ => s
    | none =>
      match loadGeoJSON w s "/data/community-borders.json" with
      | (r, s0) => { s0 with dataCache := s0.dataCache.set .communities r }
  let s2 := loadIf w requiredFiles .lrtStops "/data/lrt-stops.json" s1
  let s3 := loadIf w requiredFiles .lrtLines "/data/lrt-lines.json" s2
  let s4 := loadIf w requiredFiles .parks "/data/parks.json" s3
  let s5 := loadIf w requiredFiles .trafficIncidents "/data/traffic-incidents.json" s4
  let s6 := loadIf w requiredFiles .trafficSignals "/data/traffic-signals.json" s5
  let s7 := loadIf w requiredFiles .floodZones "/data/flood-01-chance.json" s6
  let s8 := loadIf w requiredFiles .majorRoads "/data/major-roads.json" s7
  (s8.dataCache, s8)

/-- One per-community statistics record of the full aggregation. -/
structure CommunityStat where
  id : Option ℚ
  name : String
  code : String
  sector : String
  crime : ℚ
  trafficIncidents : Nat
  parks : Nat
  trafficSignals : Nat
  lrtStops : Nat
  floodRisk : Bool
  geometry : Option Geometry

/-- One initial statistics record (communityStats.js:316-328). -/
def initCommunityStat (community : Feature) : CommunityStat :=
  { id := community.properties.id
    name := community.properties.name.getD ""
    code := community.properties.comm_code.getD ""
    sector := community.properties.sector.getD ""
    crime := community.properties.crime_by_community_total_crime.getD 0
    trafficIncidents := 0
    parks := 0
    trafficSignals := 0
    lrtStops := 0
    floodRisk := false
    geometry := community.geometry }

def bumpTrafficIncidents (c : CommunityStat) : CommunityStat :=
  { c with trafficIncidents := c.trafficIncidents + 1 }

def bumpParks (c : CommunityStat) : CommunityStat :=
  { c with parks := c.parks + 1 }

def bumpTrafficSignals (c : CommunityStat) : CommunityStat :=
  { c with trafficSignals := c.trafficSignals + 1 }

def bumpLrtStops (c : CommunityStat) : CommunityStat :=
  { c with lrtStops := c.lrtStops + 1 }

/-- The lookup-and-test the counting loops perform for one community entry
(communityStats.js:346-347 and analogues): find the first boundary feature
whose id property equals the entry id (JavaScript strict equality, with
undefined equal to undefined) and test the candidate point against its
geometry. -/
def idMatches (comms : List Feature) (i : Option ℚ) (p : Option CoordVal) : Bool :=
  match comms.find? (fun cf => cf.properties.id == i) with
  | some cf => isPointInCommunity p cf.geometry
  | none => false

/-- One candidate point feature processed against every community entry,
incrementing bump on a match; the shared shape of the traffic incident,
traffic signal and LRT stop loops (communityStats.js:341-352, 403-413,
426-435). -/
def processPointFeature (comms : List Feature) (bump : CommunityStat → CommunityStat)
    (stats : List CommunityStat) (feat : Feature) : List CommunityStat :=
  match feat.geometry with
  | none => stats
  | some g =>
    match g.coordinates with
    | none => stats
    | some coords =>
      if coords.truthy && coords.jsLenGe 2 then
        stats.map (fun community =>
          if idMatches comms community.id (some coords) then bump community else community)
      else stats

/-- The points array built for one park in the full aggregation
(communityStats.js:370-379): a Point contributes its coordinates, a
Polygon with a truthy first ring contributes the first entry of that ring
(possibly undefined), and every other case, MultiPolygon included,
contributes nothing. -/
def parkPoints (g : Geometry) (coords : CoordVal) : List (Option CoordVal) :=
  if g.type == some "Point" then [some coords]
  else if g.type == some "Polygon" || g.type == some "MultiPolygon" then
    if g.type == some "Polygon" && (match coords.idx 0 with | some r => r.truthy | none => false) then
      [(coords.idx 0).bind (fun r => r.idx 0)]
    else []
  else []

/-- One park processed against every community entry
(communityStats.js:367-390). -/
def processParkFeature (comms : List Feature) (stats : List CommunityStat) (park : Feature) :
    List CommunityStat :=
  match park.geometry with
  | none => stats
  | some g =>
    match g.coordinates with
    | none => stats
    | some coords =>
      if coords.truthy && coords.jsLenGe 2 then
        (parkPoints g coords).foldl (fun st point =>
          st.map (fun community =>
            if idMatches comms community.id point then bumpParks community else community)) stats
      else stats

/-- The flood-risk update of one community entry for one flood zone
(communityStats.js:446-462): the extracted first boundary coordinate is
tested against the wrapper object of line 458, not against the zone
geometry itself. -/
def floodCommunityUpdate (community : CommunityStat) : CommunityStat :=
  match community.geometry with
  | none => community
  | some cg =>
    match cg.coordinates with
    | none => community
    | some cc =>
      if cc.truthy then
        let testPoint : Option CoordVal :=
          if cg.type == some "Polygon" && (match cc.idx 0 with | some r => r.truthy | none => false) then
            (cc.idx 0).bind (fun r => r.idx 0)
          else if cg.type == some "MultiPolygon" && (match cc.idx 0 with | some r => r.truthy | none => false) then
            ((cc.idx 0).bind (fun r => r.idx 0)).bind (fun r => r.idx 0)
          else none
        match testPoint with
        | some tp =>
          if tp.truthy && isPointInCommunity (some tp) (some wrappedGeometryArg) then
            { community with floodRisk := true }
          else community
        | none => community
      else community

/-- One flood zone folded over the statistics list
(communityStats.js:442-464). -/
def floodZoneStep (stats : List CommunityStat) (floodZone : Feature) : List CommunityStat :=
  match floodZone.geometry with
  | none => stats
  | some zg =>
    match zg.coordinates with
    | none => stats
    | some zc => if zc.truthy then stats.map floodCommunityUpdate else stats

/-- The chunk decomposition slice(i, i + k) for i = 0, k, 2k, ...
(communityStats.js:335-336 and analogues), structurally recursive on a
fuel argument equal to the list length so that concrete runs evaluate in
the kernel; a chunk size of 0 would loop forever in the source and yields
no chunks here (every size used by the source is a positive literal). -/
def chunksGo (k : Nat) : Nat → List α → List (List α)
  | 0, _ => []
  | _, [] => []
  | fuel + 1, x :: xs => (x :: xs).take k :: chunksGo k fuel ((x :: xs).drop k)

def chunks (k : Nat) (xs : List α) : List (List α) :=
  if k = 0 then [] else chunksGo k xs.length xs

/-- The chunked driver of the aggregation scheduler: fold the step over
each chunk in order, yielding to the event loop between chunks (a
zero-duration deferral with no effect on the tallies). -/
def runChunked (k : Nat) (f : β → α → β) (init : β) (xs : List α) : β :=
  (chunks k xs).foldl (fun st c => c.foldl f st) init

/-- Processing the whole collection as one single chunk. -/
def runSingleChunk (f : β → α → β) (init : β) (xs : List α) : β :=
  [xs].foldl (fun st c => c.foldl f st) init

/-- The pure body of calculateCommunityStats after the data is loaded
(communityStats.js:310-467), parameterized on the four chunk sizes. -/
def calculateStatsPureChunked (k1 k2 k3 k4 : Nat) (data : DataCache) : List CommunityStat :=
  match data.communities with
  | none => []
  | some comms =>
    let communityStats := comms.features.map initCommunityStat
    let st1 :=
      match data.trafficIncidents with
      | some coll => runChunked k1 (processPointFeature comms.features bumpTrafficIncidents) communityStats coll.features
      | none => communityStats
    let st2 :=
      match data.parks with
      | some coll => runChunked k2 (processParkFeature comms.features) st1 coll.features
      | none => st1
    let st3 :=
      match data.trafficSignals with
      | some coll => runChunked k3 (processPointFeature comms.features bumpTrafficSignals) st2 coll.features
      | none => st2
    let st4 :=
      match data.lrtStops with
      | some coll => runChunked k4 (processPointFeature comms.features bumpLrtStops) st3 coll.features
      | none => st3
    match data.floodZones with
    | some coll => coll.features.foldl floodZoneStep st4
    | none => st4

/-- The calculateCommunityStats body with the chunk sizes of the source
(100 incidents, 50 parks, 200 signals, 200 stops). -/
def calculateStatsPure (data : DataCache) : List CommunityStat :=
  calculateStatsPureChunked 100 50 200 200 data

/-- The same four passes, each run as one single chunk. -/
def calculateStatsPureSingle (data : DataCache) : List CommunityStat :=
  match data.communities with
  | none => []
  | some comms =>
    let communityStats := comms.features.map initCommunityStat
    let st1 :=
      match data.trafficIncidents with
      | some coll => runSingleChunk (processPointFeature comms.features bumpTrafficIncidents) communityStats coll.features
      | none => communityStats
    let st2 :=
      match data.parks with
      | some coll => runSingleChunk (processParkFeature comms.features) st1 coll.features
      | none => st1
    let st3 :=
      match data.trafficSignals with
      | some coll => runSingleChunk (processPointFeature comms.features bumpTrafficSignals) st2 coll.features
      | none => st2
    let st4 :=
      match data.lrtStops with
      | some coll => runSingleChunk (processPointFeature comms.features bumpLrtStops) st3 coll.features
      | none => st3
    match data.floodZones with
    | some coll => coll.features.foldl floodZoneStep st4
    | none => st4

/-- calculateCommunityStats (communityStats.js:306-472): loadAllData is
called with no required files, then the per-community statistics are
computed from the returned cache. -/
def calculateCommunityStats (w : World) (s : Session) : List CommunityStat × Session :=
  match loadAllData w s [] with
  | (data, s1) => (calculateStatsPure data, s1)

def featureCoords (f : Feature) : Option CoordVal :=
  f.geometry.bind (fun g => g.coordinates)

/-- The filter body shared by the LRT stop, traffic incident and traffic
signal searches (communityStats.js:538-541, 630-633, 641-644): truthy
coordinates that lie in the community. -/
def pointFeatureInCommunity (communityFeature : Feature) (f : Feature) : Bool :=
  match featureCoords f with
  | some coords => coords.truthy && isPointInCommunity (some coords) communityFeature.geometry
  | none => false

/-- First, middle and last entry of a nonempty list, the sampling shape of
communityStats.js:554-558 and 588-592 (the middle entry is pushed without
a length guard there). -/
def threeSamples (l : List CoordVal) : List CoordVal :=
  match l.get? 0, l.get? (l.length / 2), l.get? (l.length - 1) with
  | some a, some b, some c => [a, b, c]
  | _, _, _ => []

/-- The LRT line filter (communityStats.js:547-565). -/
def lrtLineThroughCommunity (communityFeature : Feature) (line : Feature) : Bool :=
  match featureCoords line with
  | none => false
  | some coords =>
    if coords.truthy then
      match coords with
      | .arr l =>
        match l.get? 0 with
        | some (.arr first) =>
          if 2 ≤ first.length then
            (threeSamples l).any (fun p =>
              p.truthy && p.jsLenGe 2 && isPointInCommunity (some p) communityFeature.geometry)
          else false
        | _ => false
      | .num _ => false
    else false

/-- The centroid accumulation over a park ring (communityStats.js:595-605):
entries that are truthy with length at least 2 are averaged.  When some
counted entry is not numeric the JavaScript sums are poisoned (NaN or
string concatenation) and the pushed point satisfies no containment test;
that case contributes no point here, which is observationally equal. -/
def ringCentroid (ring : List CoordVal) : List CoordVal :=
  let counted := ring.filter (fun c => c.truthy && c.jsLenGe 2)
  let xs := counted.filterMap (fun c => (c.idx 0).bind CoordVal.asNum)
  let ys := counted.filterMap (fun c => (c.idx 1).bind CoordVal.asNum)
  if 0 < counted.length ∧ xs.length = counted.length ∧ ys.length = counted.length then
    [.arr [.num (xs.sum / (counted.length : ℚ)), .num (ys.sum / (counted.length : ℚ))]]
  else []

/-- The park filter of the targeted search (communityStats.js:573-621). -/
def parkInCommunity (communityFeature : Feature) (park : Feature) : Bool :=
  match park.geometry with
  | none => false
  | some g =>
    match g.coordinates with
    | none => false
    | some coords =>
      if !coords.truthy then false
      else if g.type == some "Point" then isPointInCommunity (some coords) communityFeature.geometry
      else if g.type == some "Polygon" && (match coords.idx 0 with | some r => r.truthy | none => false) then
        match coords.idx 0 with
        | some (.arr ring) =>
          if 0 < ring.length then
            (threeSamples ring ++ ringCentroid ring).any (fun p =>
              p.truthy && p.jsLenGe 2 && isPointInCommunity (some p) communityFeature.geometry)
          else false
        | _ => false
      else if g.type == some "MultiPolygon" &&
          (match ((coords.idx 0).bind (fun r => r.idx 0)).bind (fun r => r.idx 0) with
           | some fp => fp.truthy
           | none => false) then
        isPointInCommunity (((coords.idx 0).bind (fun r => r.idx 0)).bind (fun r => r.idx 0))
          communityFeature.geometry
      else false

/-- The major-road filter (communityStats.js:771-777). -/
def roadInCommunity (communityFeature : Feature) (road : Feature) : Bool :=
  match featureCoords road with
  | some coords => if coords.truthy then isLineInCommunity (some coords) communityFeature.geometry else false
  | none => false

/-- The community sample points of the layer-specific flood test
(communityStats.js:702-721): every step-th vertex of the outer ring of a
Polygon boundary, the last vertex when the stepping missed it (the
strict-identity test on line 712 compares array objects, hence ring
positions), and the bounding-box centroid.  For a numeric outer ring the
step is NaN and the loop body never runs. -/
def floodTestPoints (cg : Geometry) (ccoords : CoordVal) : List CoordVal :=
  let base :=
    if cg.type == some "Polygon" && (match ccoords.idx 0 with | some r => r.truthy | none => false) then
      match ccoords.idx 0 with
      | some (.arr ring) =>
        let len := ring.length
        let step := max 1 (len / 5)
        let pts := ((List.range len).filter (fun i => i % step = 0)).filterMap (fun i => ring.get? i)
        if 1 < len ∧ ((len - 1) / step) * step ≠ len - 1 then
          pts ++ (match ring.getLast? with | some lst => [lst] | none => [])
        else pts
      | _ => []
    else []
  base ++ (match getCommunityCentroid (some cg) with | some c => [c] | none => [])

/-- The risk filter of communityStats.js:655-659: flow_rate is neither
null nor undefined and strictly positive. -/
def zoneHasPositiveFlowRate (z : Feature) : Bool :=
  match z.properties.flow_rate with
  | some q => 0 < q
  | none => false

/-- The some-callback over the risk zones (communityStats.js:674-737),
given the parsed community geometry: parse the zone (a throw lands in the
catch of line 728, which tests the community centroid inside the zone),
reject on non-overlapping extents, then test the sampled community points
inside the zone. -/
def floodZoneHit (cg : Geometry) (ccoords : CoordVal) (cog : OLGeom) (z : Feature) : Bool :=
  match z.geometry with
  | none => false
  | some zg =>
    match readGeometry zg with
    | .error _ =>
      (match getCommunityCentroid (some cg) with
       | some centroid => isPointInCommunity (some centroid) (some zg)
       | none => false)
    | .ok zog =>
      if !extentsOverlapJS cog.extent zog.extent then false
      else
        (floodTestPoints cg ccoords).any (fun p =>
          if !p.truthy then false
          else if p.jsLenLt 2 then false
          else isPointInCommunity (some p) (some zg))

/-- The centroid-only zone test of the catch at communityStats.js:750-762. -/
def floodZoneCentroidHit (centroid : CoordVal) (z : Feature) : Bool :=
  match z.geometry with
  | none => false
  | some zg => isPointInCommunity (some centroid) (some zg)

/-- The flood-risk computation of the targeted search
(communityStats.js:650-766): only zones whose flow_rate is present and
strictly positive participate; extents are compared first, then sampled
community points are tested inside the zone, with centroid fallbacks in
each catch.  The null-geometry branch of line 738 is unreachable
(readGeometry either throws or returns a geometry) and is subsumed by the
catch branch. -/
def layerFloodRisk (communityGeom? : Option Geometry) (zones : List Feature) : Bool :=
  match communityGeom? with
  | none => false
  | some cg =>
    match cg.coordinates with
    | none => false
    | some ccoords =>
      if !ccoords.truthy then false
      else
        let riskFloodZones := zones.filter zoneHasPositiveFlowRate
        if riskFloodZones.isEmpty then false
        else
          match readGeometry cg with
          | .ok cog => riskFloodZones.any (floodZoneHit cg ccoords cog)
          | .error _ =>
            match getCommunityCentroid (some cg) with
            | some centroid => riskFloodZones.any (floodZoneCentroidHit centroid)
            | none => false

/-- The required files chosen per active layer
(communityStats.js:517-530). -/
def requiredFilesFor (activeLayer : String) : List CacheKey :=
  if activeLayer = "lrt" ∨ activeLayer = "lrt_lines" ∨ activeLayer = "lrt_stops" then
    [.lrtStops, .lrtLines]
  else if activeLayer = "parks" then [.parks]
  else if activeLayer = "traffic" ∨ activeLayer = "traffic_incidents" then
    [.trafficIncidents, .trafficSignals]
  else if activeLayer = "traffic_signals" then [.trafficSignals]
  else if activeLayer = "flood_01_chance" ∨ activeLayer = "flood" then [.floodZones]
  else if activeLayer = "major_roads" then [.majorRoads]
  else []

/-- The stats record of calculateLayerSpecificStats
(communityStats.js:505-513). -/
structure LayerStats where
  lrtStops : Nat
  lrtLines : Nat
  parks : Nat
  trafficIncidents : Nat
  trafficSignals : Nat
  floodRisk : Bool
  majorRoads : Nat

/-- calculateLayerSpecificStats (communityStats.js:504-786).  The source
initializes every counter to zero and assigns each field at most once,
inside the branch guarded by its layer test, so the record is assembled
field by field here. -/
def calculateLayerSpecificStats (w : World) (s : Session) (communityFeature : Feature)
    (activeLayer : String) : LayerStats × Session :=
  match loadAllData w s (requiredFilesFor activeLayer) with
  | (data, s1) =>
    ({ lrtStops :=
         if activeLayer = "lrt" ∨ activeLayer = "lrt_lines" ∨ activeLayer = "lrt_stops" then
           match data.lrtStops with
           | some coll => (coll.features.filter (pointFeatureInCommunity communityFeature)).length
           | none => 0
         else 0
       lrtLines :=
         if activeLayer = "lrt" ∨ activeLayer = "lrt_lines" ∨ activeLayer = "lrt_stops" then
           match data.lrtLines with
           | some coll => (coll.features.filter (lrtLineThroughCommunity communityFeature)).length
           | none => 0
         else 0
       parks :=
         if activeLayer = "parks" then
           match data.parks with
           | some coll => (coll.features.filter (parkInCommunity communityFeature)).length
           | none => 0
         else 0
       trafficIncidents :=
         if activeLayer = "traffic" ∨ activeLayer = "traffic_incidents" then
           match data.trafficIncidents with
           | some coll => (coll.features.filter (pointFeatureInCommunity communityFeature)).length
           | none => 0
         else 0
       trafficSignals :=
         if activeLayer = "traffic" ∨ activeLayer = "traffic_signals" then
           match data.trafficSignals with
           | some coll => (coll.features.filter (pointFeatureInCommunity communityFeature)).length
           | none => 0
         else 0
       floodRisk :=
         if activeLayer = "flood_01_chance" ∨ activeLayer = "flood" then
           match data.floodZones with
           | some coll => layerFloodRisk communityFeature.geometry coll.features
           | none => false
         else false
       majorRoads :=
         if activeLayer = "major_roads" then
           match data.majorRoads with
           | some coll => (coll.features.filter (roadInCommunity communityFeature)).length
           | none => 0
         else 0 }, s1)

/-- JavaScript String.prototype.toLowerCase, modelled characterwise on the
underlying character list (the repo's data is ASCII); written over the raw
list so that concrete searches evaluate by kernel reduction. -/
def strToLower (s : String) : String := ⟨s.data.map Char.toLower⟩

/-- JavaScript String.prototype.includes: substring containment. -/
def strIncludes (s sub : String) : Bool :=
  s.data.tails.any (fun t => sub.data.isPrefixOf t)

/-- The community filter predicate of searchCommunities
(communityStats.js:806-810), applied to the already lowercased term. -/
def communityMatchesTerm (term : String) (community : Feature) : Bool :=
  strIncludes (strToLower (community.properties.name.getD "")) term ||
  strIncludes (strToLower (community.properties.comm_code.getD "")) term

/-- One search result (communityStats.js:816-845). -/
structure SearchResult where
  id : Option ℚ
  name : String
  code : String
  sector : String
  crime : ℚ
  geometry : Option Geometry
  trafficIncidents : Nat
  parks : Nat
  trafficSignals : Nat
  lrtStops : Nat
  lrtLines : Nat
  floodRisk : Bool
  majorRoads : Nat

/-- One result of searchCommunities (communityStats.js:815-846): the
carried properties plus the layer statistics when a truthy active layer is
given (the empty string is falsy), zeros otherwise. -/
def resultFor (w : World) (s : Session) (activeLayer : Option String) (community : Feature) :
    SearchResult × Session :=
  let mk : LayerStats → SearchResult := fun ls =>
    { id := community.properties.id
      name := community.properties.name.getD ""
      code := community.properties.comm_code.getD ""
      sector := community.properties.sector.getD ""
      crime := community.properties.crime_by_community_total_crime.getD 0
      geometry := community.geometry
      trafficIncidents := ls.trafficIncidents
      parks := ls.parks
      trafficSignals := ls.trafficSignals
      lrtStops := ls.lrtStops
      lrtLines := ls.lrtLines
      floodRisk := ls.floodRisk
      majorRoads := ls.majorRoads }
  match activeLayer with
  | some layer =>
    if layer = "" then (mk ⟨0, 0, 0, 0, 0, false, 0⟩, s)
    else
      match calculateLayerSpecificStats w s community layer with
      | (ls, s1) => (mk ls, s1)
  | none => (mk ⟨0, 0, 0, 0, 0, false, 0⟩, s)

/-- The sequential rendering of the Promise.all mapping
(communityStats.js:814-847); loads are idempotent and the caches only
grow, so sequential threading realizes the last-writer-wins outcome the
design accepts for concurrent loads. -/
def searchResultsLoop (w : World) (activeLayer : Option String) (s : Session) :
    List Feature → List SearchResult × Session
  | [] => ([], s)
  | f :: fs =>
    match resultFor w s activeLayer f with
    | (r, s1) =>
      match searchResultsLoop w activeLayer s1 fs with
      | (rs, s2) => (r :: rs, s2)

/-- searchCommunities (communityStats.js:791-854): terms that are absent
or shorter than 2 characters answer immediately; otherwise the boundary
collection alone is loaded, filtered by the case-insensitive name or code
substring match, truncated to 10 entries and decorated with the
layer-specific statistics. -/
def searchCommunities (w : World) (s : Session) (searchTerm : Option String)
    (activeLayer : Option String) : List SearchResult × Session :=
  match searchTerm with
  | none => ([], s)
  | some t =>
    if t.length < 2 then ([], s)
    else
      match loadCommunitiesOnly w s with
      | (none, s1) => ([], s1)
      | (some communities, s1) =>
        let filtered := (communities.features.filter (communityMatchesTerm (strToLower t))).take 10
        searchResultsLoop w activeLayer s1 filtered

/-! Shared lemmas about the geometry predicates. -/

/-- The wrapper object of communityStats.js:458 satisfies no containment
test: its parse throws and the fallback finds no coordinates. -/
theorem isPointInCommunity_wrapped (p : Option CoordVal) :
    isPointInCommunity p (some wrappedGeometryArg) = false := by
  match p with
  | none => rfl
  | some (.num q) =>
    by_cases hq : q = 0 <;>
      simp [isPointInCommunity, CoordVal.truthy, hq, tryPointMain, destructurePair,
        fallbackPointCheck, wrappedGeometryArg]
  | some (.arr l) =>
    simp only [isPointInCommunity, CoordVal.truthy, if_true]
    simp only [tryPointMain, destructurePair]
    cases hx : (l.get? 0).bind CoordVal.asNum <;> cases hy : (l.get? 1).bind CoordVal.asNum <;>
      simp [hx, hy, wrappedGeometryArg, readGeometry, fallbackPointCheck]

/-- The ray-casting fallback returns false whenever the geometry type tag
is neither Polygon nor MultiPolygon. -/
theorem fallbackPointCheck_not_polygonal (g : Geometry)
    (hp : g.type ≠ some "Polygon") (hm : g.type ≠ some "MultiPolygon")
    (q : CoordVal) : fallbackPointCheck q g = false := by
  rcases g with ⟨t, c⟩
  cases c with
  | none => rfl
  | some coords =>
    simp only [fallbackPointCheck]
    by_cases htr : coords.truthy
    · simp only [htr, Bool.not_true, Bool.false_eq_true, if_false]
      cases destructurePair q with
      | error e => rfl
      | ok pr =>
        cases hx : pr.1.bind CoordVal.asNum <;> cases hy : pr.2.bind CoordVal.asNum <;>
          (simp only [hx, hy]; try simp_all)
    · simp [htr]

/-- A geometry whose parse throws also defeats the fallback: either its
coordinates are absent or its type tag is not polygonal. -/
theorem fallbackPointCheck_parse_error (g : Geometry) (hg : readGeometry g = .error ())
    (q : CoordVal) : fallbackPointCheck q g = false := by
  rcases g with ⟨t, c⟩
  cases c with
  | none => rfl
  | some coords =>
    refine fallbackPointCheck_not_polygonal _ ?_ ?_ q
    · intro h
      rw [show (Geometry.mk t (some coords)).type = t from rfl] at h
      subst h
      simp [readGeometry] at hg
    · intro h
      rw [show (Geometry.mk t (some coords)).type = t from rfl] at h
      subst h
      simp [readGeometry] at hg

/-- An unparseable boundary or zone geometry matches no point at all. -/
theorem isPointInCommunity_parse_error (g : Geometry) (hg : readGeometry g = .error ())
    (p : Option CoordVal) : isPointInCommunity p (some g) = false := by
  match p with
  | none => rfl
  | some q =>
    simp only [isPointInCommunity]
    by_cases htq : q.truthy
    · simp only [htq, if_true]
      cases hd : destructurePair q with
      | error e => simp [tryPointMain, hd, fallbackPointCheck_parse_error g hg]
      | ok pr =>
        cases hx : pr.1.bind CoordVal.asNum <;> cases hy : pr.2.bind CoordVal.asNum <;>
          simp [tryPointMain, hd, hx, hy, hg, fallbackPointCheck_parse_error g hg]
    · simp [htq]

/-- An unparseable boundary geometry matches no line either: the line test
falls back to its first point, which the previous lemma rejects. -/
theorem isLineInCommunity_parse_error (g : Geometry) (hg : readGeometry g = .error ())
    (cs : Option CoordVal) : isLineInCommunity cs (some g) = false := by
  match cs with
  | none => rfl
  | some c =>
    simp only [isLineInCommunity]
    by_cases htc : c.truthy
    · simp only [htc, Bool.not_true, Bool.false_eq_true, if_false, hg]
      simp only [lineFallback]
      cases hl : c.jsLength with
      | none => rfl
      | some n =>
        by_cases hn : n = 0
        · simp [hn]
        · simp only [hn, if_false]
          cases hfp : (if isNumHeaded c then c.idx 0
              else if isArrHeaded c then (c.idx 0).bind (fun f => f.idx 0) else none) with
          | none => rfl
          | some fp =>
            simp only []
            by_cases hft : fp.truthy && fp.jsLenGe 2
            · simp [hft, isPointInCommunity_parse_error g hg]
            · simp [hft]
    · simp [htc]

/-! Lemmas about the full-aggregation passes. -/

/-- The flood-risk update of the full aggregation never changes an entry:
the containment test against the wrapper object of line 458 is always
false. -/
theorem floodCommunityUpdate_id (c : CommunityStat) : floodCommunityUpdate c = c := by
  obtain ⟨i, nm, cd, sec, cr, ti, pk, ts, ls, fr, geo⟩ := c
  cases geo with
  | none => rfl
  | some cg =>
    obtain ⟨t, cc?⟩ := cg
    cases cc? with
    | none => rfl
    | some cc =>
      simp only [floodCommunityUpdate]
      by_cases htr : cc.truthy
      · simp only [htr, if_true]
        cases htp : (if (Geometry.mk t (some cc)).type == some "Polygon" && (match cc.idx 0 with | some r => r.truthy | none => false) then
            (cc.idx 0).bind (fun r => r.idx 0)
          else if (Geometry.mk t (some cc)).type == some "MultiPolygon" && (match cc.idx 0 with | some r => r.truthy | none => false) then
            ((cc.idx 0).bind (fun r => r.idx 0)).bind (fun r => r.idx 0)
          else none) with
        | none => rfl
        | some tp => simp [htp, isPointInCommunity_wrapped]
      · simp [htr]

/-- Hence a whole flood-zone pass is the identity on the statistics. -/
theorem floodZoneStep_id (stats : List CommunityStat) (z : Feature) : floodZoneStep stats z = stats := by
  have hmap : stats.map floodCommunityUpdate = stats := by
    induction stats with
    | nil => rfl
    | cons c cs ih => simp [floodCommunityUpdate_id, ih]
  obtain ⟨props, geo⟩ := z
  cases geo with
  | none => rfl
  | some zg =>
    obtain ⟨t, zc?⟩ := zg
    cases zc? with
    | none => rfl
    | some zc =>
      simp only [floodZoneStep]
      by_cases htr : zc.truthy <;> simp [htr, hmap]

theorem foldl_floodZoneStep (zs : List Feature) (stats : List CommunityStat) :
    zs.foldl floodZoneStep stats = stats := by
  induction zs generalizing stats with
  | nil => rfl
  | cons z zs ih => rw [List.foldl_cons, floodZoneStep_id, ih]

/-- Folding over the chunk list is folding over the whole list, for any
positive chunk size. -/
theorem chunksGo_foldl {α β : Type _} (k : Nat) (hk : 0 < k) (f : β → α → β) :
    ∀ (fuel : Nat) (xs : List α), xs.length ≤ fuel → ∀ init,
      (chunksGo k fuel xs).foldl (fun st c => c.foldl f st) init = xs.foldl f init := by
  intro fuel
  induction fuel with
  | zero =>
    intro xs hxs init
    have hx : xs = [] := List.eq_nil_of_length_eq_zero (Nat.le_zero.mp hxs)
    subst hx
    rfl
  | succ n ih =>
    intro xs hxs init
    cases xs with
    | nil => rfl
    | cons x xs0 =>
      simp only [chunksGo, List.foldl_cons]
      rw [ih]
      · rw [← List.foldl_append, List.take_append_drop]
        rfl
      · simp only [List.length_drop, List.length_cons] at *
        omega

theorem runChunked_eq_foldl {α β : Type _} (k : Nat) (hk : 0 < k) (f : β → α → β)
    (init : β) (xs : List α) : runChunked k f init xs = xs.foldl f init := by
  simp only [runChunked, chunks, Nat.pos_iff_ne_zero.mp hk, if_false]
  exact chunksGo_foldl k hk f xs.length xs (Nat.le_refl _) init

theorem runSingleChunk_eq {α β : Type _} (f : β → α → β) (init : β) (xs : List α) :
    runSingleChunk f init xs = xs.foldl f init := rfl

/-- A conditional bump leaves every projection it does not touch alone. -/
theorem map_if_bump {α : Type _} (gp : CommunityStat → α) (bump : CommunityStat → CommunityStat)
    (m : CommunityStat → Bool) (hb : ∀ c, gp (bump c) = gp c) (stats : List CommunityStat) :
    (stats.map (fun c => if m c then bump c else c)).map gp = stats.map gp := by
  induction stats with
  | nil => rfl
  | cons c cs ih => by_cases hm : m c <;> simp [hm, hb, ih]

theorem processPointFeature_map_proj {α : Type _} (gp : CommunityStat → α)
    (comms : List Feature) (bump : CommunityStat → CommunityStat)
    (hb : ∀ c, gp (bump c) = gp c) (stats : List CommunityStat) (feat : Feature) :
    (processPointFeature comms bump stats feat).map gp = stats.map gp := by
  obtain ⟨props, geo⟩ := feat
  cases geo with
  | none => rfl
  | some g =>
    obtain ⟨t, c?⟩ := g
    cases c? with
    | none => rfl
    | some coords =>
      simp only [processPointFeature]
      by_cases hc : coords.truthy && coords.jsLenGe 2
      · simp only [hc, if_true]
        exact map_if_bump gp bump _ hb stats
      · simp [hc]

theorem processParkFeature_map_proj {α : Type _} (gp : CommunityStat → α)
    (comms : List Feature) (hb : ∀ c, gp (bumpParks c) = gp c)
    (stats : List CommunityStat) (park : Feature) :
    (processParkFeature comms stats park).map gp = stats.map gp := by
  have hinner : ∀ (pts : List (Option CoordVal)) (st : List CommunityStat),
      ((pts.foldl (fun st2 point => st2.map fun community =>
        if idMatches comms community.id point then bumpParks community else community) st).map gp)
        = st.map gp := by
    intro pts
    induction pts with
    | nil => intro st; rfl
    | cons p ps ih =>
      intro st
      rw [List.foldl_cons, ih, map_if_bump gp bumpParks _ hb]
  obtain ⟨props, geo⟩ := park
  cases geo with
  | none => rfl
  | some g =>
    obtain ⟨t, c?⟩ := g
    cases c? with
    | none => rfl
    | some coords =>
      simp only [processParkFeature]
      by_cases hc : coords.truthy && coords.jsLenGe 2
      · simp only [hc, if_true]
        exact hinner _ stats
      · simp [hc]

theorem foldl_map_proj {α : Type _} (gp : CommunityStat → α)
    (step : List CommunityStat → Feature → List CommunityStat)
    (hstep : ∀ st f, (step st f).map gp = st.map gp) :
    ∀ (fs : List Feature) (st : List CommunityStat), ((fs.foldl step st).map gp) = st.map gp := by
  intro fs
  induction fs with
  | nil => intro st; rfl
  | cons f fs ih => intro st; rw [List.foldl_cons, ih, hstep]

theorem optPass_map_proj {α : Type _} (gp : CommunityStat → α) (coll : Option FeatureCollection)
    (k : Nat) (hk : 0 < k) (step : List CommunityStat → Feature → List CommunityStat)
    (hstep : ∀ st f, (step st f).map gp = st.map gp) (st : List CommunityStat) :
    ((match coll with
      | some l => runChunked k step st l.features
      | none => st).map gp) = st.map gp := by
  cases coll with
  | none => rfl
  | some l =>
    show (runChunked k step st l.features).map gp = st.map gp
    rw [runChunked_eq_foldl k hk, foldl_map_proj gp step hstep]

/-- The floodRisk flag of every full-aggregation record is false, whatever
data is loaded: the four counting passes never touch the flag and the
flood pass is the identity. -/
theorem statsPure_floodRisk_all_false (data : DataCache) :
    (calculateStatsPure data).map (fun c => c.floodRisk) =
      (match data.communities with
       | none => ([] : List Feature)
       | some comms => comms.features).map (fun _ => false) := by
  simp only [calculateStatsPure, calculateStatsPureChunked]
  cases hc : data.communities with
  | none => rfl
  | some comms =>
    simp only []
    have hTI : ∀ c : CommunityStat, (bumpTrafficIncidents c).floodRisk = c.floodRisk := by
      intro c; rfl
    have hTS : ∀ c : CommunityStat, (bumpTrafficSignals c).floodRisk = c.floodRisk := by
      intro c; rfl
    have hLS : ∀ c : CommunityStat, (bumpLrtStops c).floodRisk = c.floodRisk := by
      intro c; rfl
    have hPK : ∀ c : CommunityStat, (bumpParks c).floodRisk = c.floodRisk := by
      intro c; rfl
    have h5 : ∀ st : List CommunityStat,
        ((match data.floodZones with
          | some coll => coll.features.foldl floodZoneStep st
          | none => st).map (fun c : CommunityStat => c.floodRisk)) =
          st.map (fun c : CommunityStat => c.floodRisk) := by
      intro st
      cases data.floodZones with
      | none => rfl
      | some coll =>
        show ((coll.features.foldl floodZoneStep st).map (fun c : CommunityStat => c.floodRisk)) = _
        rw [foldl_floodZoneStep]
    rw [h5]
    rw [optPass_map_proj _ data.lrtStops 200 (by decide) _
      (fun st f => processPointFeature_map_proj _ comms.features bumpLrtStops hLS st f)]
    rw [optPass_map_proj _ data.trafficSignals 200 (by decide) _
      (fun st f => processPointFeature_map_proj _ comms.features bumpTrafficSignals hTS st f)]
    rw [optPass_map_proj _ data.parks 50 (by decide) _
      (fun st f => processParkFeature_map_proj _ comms.features hPK st f)]
    rw [optPass_map_proj _ data.trafficIncidents 100 (by decide) _
      (fun st f => processPointFeature_map_proj _ comms.features bumpTrafficIncidents hTI st f)]
    rw [List.map_map]
    rfl

/-- A zone without a positive flow rate is dropped by the risk filter of
the targeted search and cannot influence its flood flag. -/
theorem layerFloodRisk_drop_nonpositive (cg : Option Geometry) (z : Feature)
    (zones : List Feature) (hz : zoneHasPositiveFlowRate z = false) :
    layerFloodRisk cg (z :: zones) = layerFloodRisk cg zones := by
  cases cg with
  | none => rfl
  | some cg0 =>
    obtain ⟨t, cc?⟩ := cg0
    cases cc? with
    | none => rfl
    | some ccoords =>
      simp only [layerFloodRisk, List.filter_cons, hz]
      rfl

/-! Concrete data used by witnesses and counterexamples. -/

/-- A closed axis-aligned square ring from (a, a) to (b, b). -/
def exSquareRing (a b : ℚ) : CoordVal :=
  .arr [.arr [.num a, .num a], .arr [.num b, .num a], .arr [.num b, .num b],
        .arr [.num a, .num b], .arr [.num a, .num a]]

def exPolygonGeom (a b : ℚ) : Geometry :=
  { type := some "Polygon", coordinates := some (.arr [exSquareRing a b]) }

def exCommunity : Feature :=
  { properties := { id := some 1, name := some "Panorama Hills", comm_code := some "PAN" },
    geometry := some (exPolygonGeom 0 4) }

def exFloodZone125 : Feature :=
  { properties := { flow_rate := some (25 / 2) }, geometry := some (exPolygonGeom (-1) 5) }

def exFloodZoneZero : Feature :=
  { properties := { flow_rate := some 0 }, geometry := some (exPolygonGeom (-1) 5) }

def c1ExampleData : DataCache :=
  { communities := some ⟨[exCommunity]⟩, floodZones := some ⟨[exFloodZone125]⟩ }

/-- C1, counterexample: a boundary square overlapped by a flood zone whose
flow_rate is 12.5 (the zone strictly contains the boundary, and the
layer-specific flood test of the same source confirms the overlap), yet
the full aggregation leaves floodRisk false. -/
theorem c1_counterexample :
    (calculateStatsPure c1ExampleData).map (fun c => c.floodRisk) = [false] ∧
    exFloodZone125.properties.flow_rate = some (25 / 2) ∧
    layerFloodRisk exCommunity.geometry [exFloodZone125] = true :=
  ⟨rfl, rfl, by with_unfolding_all decide⟩

/-- C1, amended: in the full aggregation (calculateCommunityStats) the
floodRisk flag is false for every boundary whatever flood zones are
loaded, because the overlap test receives the wrapper object of line 458
whose parse always fails; the positive-flow-rate filtering the claim
describes belongs to the layer-specific statistics, where a zone without
a present positive flow_rate never contributes. -/
theorem c1_theorem :
    (∀ (data : DataCache) (c : CommunityStat), c ∈ calculateStatsPure data → c.floodRisk = false) ∧
    (∀ (cg : Option Geometry) (z : Feature) (zones : List Feature),
      zoneHasPositiveFlowRate z = false →
      layerFloodRisk cg (z :: zones) = layerFloodRisk cg zones) := by
  constructor
  · intro data c hmem
    have h := statsPure_floodRisk_all_false data
    have hin : c.floodRisk ∈ (calculateStatsPure data).map (fun c => c.floodRisk) :=
      List.mem_map_of_mem _ hmem
    rw [h] at hin
    rcases List.mem_map.mp hin with ⟨f, hf, hval⟩
    exact hval.symm
  · intro cg z zones hz
    exact layerFloodRisk_drop_nonpositive cg z zones hz

/-- C1, witness: the amended claim evaluated on the concrete data, for the
boundary record of the example and a zero-flow zone. -/
theorem c1_witness :
    zoneHasPositiveFlowRate exFloodZoneZero = false ∧
    (initCommunityStat exCommunity).floodRisk = false ∧
    layerFloodRisk exCommunity.geometry [exFloodZoneZero] = layerFloodRisk exCommunity.geometry [] :=
  ⟨rfl,
   c1_theorem.1 c1ExampleData (initCommunityStat exCommunity)
     (by rw [show calculateStatsPure c1ExampleData = [initCommunityStat exCommunity] from rfl]
         exact List.mem_singleton_self _),
   c1_theorem.2 exCommunity.geometry exFloodZoneZero [] rfl⟩

/-- C2: a feature whose geometry fails to parse is caught and classified
as non-matching everywhere it can raise: the point test and the line test
return false instead of propagating, and inserting such a flood zone
anywhere into the candidate list leaves the flood join over the remaining
features unchanged, so no malformed feature aborts or skews the
aggregation. -/
theorem c2_theorem (g : Geometry) (hg : readGeometry g = .error ()) :
    (∀ p, isPointInCommunity p (some g) = false) ∧
    (∀ cs, isLineInCommunity cs (some g) = false) ∧
    (∀ (cg : Option Geometry) (props : Properties) (zs1 zs2 : List Feature),
      layerFloodRisk cg (zs1 ++ ⟨props, some g⟩ :: zs2) = layerFloodRisk cg (zs1 ++ zs2)) := by
  refine ⟨isPointInCommunity_parse_error g hg, isLineInCommunity_parse_error g hg, ?_⟩
  intro cg props zs1 zs2
  cases cg with
  | none => rfl
  | some cg0 =>
    obtain ⟨t, cc?⟩ := cg0
    cases cc? with
    | none => rfl
    | some ccoords =>
      simp only [layerFloodRisk]
      by_cases htr : ccoords.truthy
      · simp only [htr, Bool.not_true, Bool.false_eq_true, if_false]
        by_cases hp : zoneHasPositiveFlowRate ⟨props, some g⟩
        · have hHit : ∀ cog, floodZoneHit (Geometry.mk t (some ccoords)) ccoords cog ⟨props, some g⟩ = false := by
            intro cog
            simp only [floodZoneHit, hg]
            cases getCommunityCentroid (some (Geometry.mk t (some ccoords))) with
            | none => rfl
            | some centroid => exact isPointInCommunity_parse_error g hg (some centroid)
          have hCent : ∀ centroid, floodZoneCentroidHit centroid ⟨props, some g⟩ = false := by
            intro centroid
            simp only [floodZoneCentroidHit]
            exact isPointInCommunity_parse_error g hg (some centroid)
          rw [List.filter_append, List.filter_cons, List.filter_append]
          simp only [hp, if_true]
          by_cases hE : (zs1.filter zoneHasPositiveFlowRate ++ zs2.filter zoneHasPositiveFlowRate).isEmpty
          · rcases List.append_eq_nil.mp (List.isEmpty_iff.mp hE) with ⟨h1, h2⟩
            rw [h1, h2]
            simp only [List.nil_append, List.isEmpty_cons, List.isEmpty_nil, if_true,
              Bool.false_eq_true, if_false]
            cases readGeometry (Geometry.mk t (some ccoords)) with
            | ok cog => simp [List.any_cons, hHit]
            | error e =>
              cases getCommunityCentroid (some (Geometry.mk t (some ccoords))) with
              | none => rfl
              | some centroid => simp [List.any_cons, hCent]
          · have hE2 : (zs1.filter zoneHasPositiveFlowRate ++ ⟨props, some g⟩ :: zs2.filter zoneHasPositiveFlowRate).isEmpty = false := by
              cases h : zs1.filter zoneHasPositiveFlowRate <;> simp [h]
            rw [hE2]
            simp only [Bool.false_eq_true, if_false]
            rw [show ((zs1.filter zoneHasPositiveFlowRate ++ zs2.filter zoneHasPositiveFlowRate).isEmpty : Bool) = false from by
              cases hE3 : (zs1.filter zoneHasPositiveFlowRate ++ zs2.filter zoneHasPositiveFlowRate).isEmpty
              · rfl
              · exact absurd hE3 hE]
            simp only [Bool.false_eq_true, if_false]
            cases readGeometry (Geometry.mk t (some ccoords)) with
            | ok cog => simp [List.any_append, List.any_cons, hHit]
            | error e =>
              cases getCommunityCentroid (some (Geometry.mk t (some ccoords))) with
              | none => rfl
              | some centroid => simp [List.any_append, List.any_cons, hCent]
        · rw [List.filter_append, List.filter_cons, List.filter_append]
          simp only [hp]
          simp
      · simp [htr]

/-- A geometry with an unrecognized type tag; its parse throws. -/
def exBadGeometry : Geometry := { type := some "Bogus", coordinates := some (.arr []) }

/-- C2, witness: the theorem applied to a concrete unparseable geometry,
a concrete point, line and flood-zone insertion. -/
theorem c2_witness :
    readGeometry exBadGeometry = .error () ∧
    isPointInCommunity (some (.arr [.num 2, .num 2])) (some exBadGeometry) = false ∧
    isLineInCommunity (some (.arr [.arr [.num 2, .num 2]])) (some exBadGeometry) = false ∧
    layerFloodRisk exCommunity.geometry
        ([] ++ ⟨{ flow_rate := some 1 }, some exBadGeometry⟩ :: [exFloodZone125]) =
      layerFloodRisk exCommunity.geometry ([] ++ [exFloodZone125]) :=
  ⟨rfl,
   (c2_theorem exBadGeometry rfl).1 _,
   (c2_theorem exBadGeometry rfl).2.1 _,
   (c2_theorem exBadGeometry rfl).2.2 exCommunity.geometry { flow_rate := some 1 } [] [exFloodZone125]⟩

/-- C3: for every candidate collection and every positive chunk size,
running the chunked driver of the aggregation loops produces exactly the
same result as a single chunk covering the whole collection, both for the
generic driver and for the full per-boundary statistics with all four
chunk sizes replaced. -/
theorem c3_theorem :
    (∀ {α β : Type} (k : Nat), 0 < k → ∀ (f : β → α → β) (init : β) (xs : List α),
        runChunked k f init xs = runSingleChunk f init xs) ∧
    (∀ (k1 k2 k3 k4 : Nat), 0 < k1 → 0 < k2 → 0 < k3 → 0 < k4 → ∀ (data : DataCache),
        calculateStatsPureChunked k1 k2 k3 k4 data = calculateStatsPureSingle data) := by
  constructor
  · intro α β k hk f init xs
    rw [runChunked_eq_foldl k hk, runSingleChunk_eq]
  · intro k1 k2 k3 k4 h1 h2 h3 h4 data
    simp only [calculateStatsPureChunked, calculateStatsPureSingle]
    cases hc : data.communities with
    | none => rfl
    | some comms =>
      simp only []
      cases hti : data.trafficIncidents <;> cases hpk : data.parks <;>
        cases hts : data.trafficSignals <;> cases hls : data.lrtStops <;>
        cases hfz : data.floodZones <;>
        simp [runChunked_eq_foldl _ h1, runChunked_eq_foldl _ h2, runChunked_eq_foldl _ h3,
          runChunked_eq_foldl _ h4, runSingleChunk_eq]

def exPointFeature (x y : ℚ) : Feature :=
  { properties := {},
    geometry := some { type := some "Point", coordinates := some (.arr [.num x, .num y]) } }

def c3ExampleData : DataCache :=
  { communities := some ⟨[exCommunity]⟩,
    trafficIncidents := some ⟨[exPointFeature 2 2, exPointFeature 9 9, exPointFeature 1 1]⟩ }

/-- C3, witness: the chunk equivalence evaluated at size 2 on a concrete
fold and at size 1 on concrete aggregation data. -/
theorem c3_witness :
    (0 < 2 ∧ runChunked 2 (fun (a : Nat) (b : Nat) => a + b) 0 [1, 2, 3, 4, 5] =
      runSingleChunk (fun (a : Nat) (b : Nat) => a + b) 0 [1, 2, 3, 4, 5]) ∧
    (0 < 1 ∧ calculateStatsPureChunked 1 1 1 1 c3ExampleData = calculateStatsPureSingle c3ExampleData) :=
  ⟨⟨by decide, c3_theorem.1 2 (by decide) _ 0 [1, 2, 3, 4, 5]⟩,
   ⟨by decide, c3_theorem.2 1 1 1 1 (by decide) (by decide) (by decide) (by decide) c3ExampleData⟩⟩

/-- C6: calling the full aggregation twice with the same immutable fetch
environment and no intervening operation yields identical per-boundary
statistics records; the first call at most fills the cache, which the
second call reads back. -/
theorem c6_theorem (w : World) (s : Session) :
    (calculateCommunityStats w (calculateCommunityStats w s).2).1 = (calculateCommunityStats w s).1 := by
  cases hc : s.dataCache.communities with
  | some c =>
    have h1 : calculateCommunityStats w s = (calculateStatsPure s.dataCache, s) := by
      simp [calculateCommunityStats, loadAllData, loadIf, hc]
    rw [h1]
    simp [h1]
  | none =>
    cases hlk : s.geoJsonCache.lookup "/data/community-borders.json" with
    | some data =>
      simp [calculateCommunityStats, loadAllData, loadIf, loadGeoJSON, hc, hlk, DataCache.set, DataCache.get]
    | none =>
      cases hwf : w.files.lookup "/data/community-borders.json" with
      | some data =>
        simp [calculateCommunityStats, loadAllData, loadIf, loadGeoJSON, hc, hlk, hwf, DataCache.set, DataCache.get]
      | none =>
        simp [calculateCommunityStats, loadAllData, loadIf, loadGeoJSON, hc, hlk, hwf, DataCache.set, DataCache.get]

/-- C10: a missing, empty or single-character search term makes
searchCommunities return the empty list with the session state untouched,
so no data is loaded and no spatial computation runs. -/
theorem c10_theorem (w : World) (s : Session) (activeLayer : Option String)
    (searchTerm : Option String)
    (hshort : searchTerm = none ∨ ∃ t, searchTerm = some t ∧ t.length < 2) :
    searchCommunities w s searchTerm activeLayer = ([], s) := by
  rcases hshort with h | ⟨t, ht, hlen⟩
  · subst h; rfl
  · subst ht; simp [searchCommunities, hlen]

/-- C10, witness: the guard evaluated on the one-character term. -/
theorem c10_witness :
    ((some "a" : Option String) = none ∨ ∃ t, (some "a" : Option String) = some t ∧ t.length < 2) ∧
    searchCommunities ⟨[]⟩ ⟨[], {}, 0⟩ (some "a") (some "parks") = ([], ⟨[], {}, 0⟩) :=
  ⟨Or.inr ⟨"a", rfl, by decide⟩,
   c10_theorem ⟨[]⟩ ⟨[], {}, 0⟩ (some "parks") (some "a") (Or.inr ⟨"a", rfl, by decide⟩)⟩

end UrbanInsight

namespace UrbanInsight

/-- Both caches only grow: every committed entry of the URL cache and of
the field cache survives into the later session state. -/
def CachePreserves (s s' : Session) : Prop :=
  (∀ url v, s.geoJsonCache.lookup url = some v → s'.geoJsonCache.lookup url = some v) ∧
  (∀ k v, s.dataCache.get k = some v → s'.dataCache.get k = some v)

theorem cachePreserves_refl (s : Session) : CachePreserves s s :=
  ⟨fun _ _ h => h, fun _ _ h => h⟩

theorem cachePreserves_trans {s1 s2 s3 : Session}
    (h12 : CachePreserves s1 s2) (h23 : CachePreserves s2 s3) : CachePreserves s1 s3 :=
  ⟨fun u v h => h23.1 u v (h12.1 u v h), fun k v h => h23.2 k v (h12.2 k v h)⟩

theorem DataCache.get_set_same (d : DataCache) (key : CacheKey) (v : Option FeatureCollection) :
    (d.set key v).get key = v := by
  cases key <;> rfl

theorem DataCache.get_set_preserves (d : DataCache) (key : CacheKey) (v : Option FeatureCollection)
    (hcur : d.get key = none ∨ d.get key = v) :
    ∀ k w, d.get k = some w → (d.set key v).get k = some w := by
  intro k w h
  rcases hcur with hcur | hcur <;> cases key <;> cases k <;> simp_all [DataCache.get, DataCache.set]

theorem loadGeoJSON_dataCache (w : World) (s : Session) (url : String) :
    (loadGeoJSON w s url).2.dataCache = s.dataCache := by
  unfold loadGeoJSON
  cases s.geoJsonCache.lookup url with
  | some data => rfl
  | none => cases w.files.lookup url with
    | some data => rfl
    | none => rfl

theorem mono_loadGeoJSON (w : World) (s : Session) (url : String) :
    CachePreserves s (loadGeoJSON w s url).2 := by
  unfold loadGeoJSON
  cases hlk : s.geoJsonCache.lookup url with
  | some data => exact cachePreserves_refl s
  | none =>
    cases hwf : w.files.lookup url with
    | some data =>
      refine ⟨?_, fun k v h => h⟩
      intro u v h
      show List.lookup u ((url, data) :: s.geoJsonCache) = some v
      rw [List.lookup]
      cases hbeq : u == url with
      | true =>
        exact absurd h (by rw [eq_of_beq hbeq, hlk]; exact fun hx => by cases hx)
      | false => simpa using h
    | none => exact ⟨fun u v h => h, fun k v h => h⟩

theorem mono_loadDataFile (w : World) (s : Session) (path : String) (key : CacheKey) :
    CachePreserves s (loadDataFile w s path key).2 := by
  unfold loadDataFile
  cases hget : s.dataCache.get key with
  | some v => exact cachePreserves_refl s
  | none =>
    cases hlg : loadGeoJSON w s path with
    | mk r sg =>
      have hmg : CachePreserves s sg := by
        have := mono_loadGeoJSON w s path
        rw [hlg] at this
        exact this
      have hdc : sg.dataCache = s.dataCache := by
        have := loadGeoJSON_dataCache w s path
        rw [hlg] at this
        exact this
      cases r with
      | some data =>
        refine cachePreserves_trans hmg ⟨fun u v h => h, ?_⟩
        intro k v h
        show (sg.dataCache.set key (some data)).get k = some v
        exact DataCache.get_set_preserves sg.dataCache key (some data)
          (Or.inl (by rw [hdc]; exact hget)) k v h
      | none => exact hmg

theorem loadDataFile_get_key (w : World) (s : Session) (path : String) (key : CacheKey)
    (r : Option FeatureCollection) (s1 : Session)
    (h : loadDataFile w s path key = (r, s1)) :
    s1.dataCache.get key = none ∨ s1.dataCache.get key = r := by
  unfold loadDataFile at h
  cases hget : s.dataCache.get key with
  | some v =>
    rw [hget] at h
    obtain ⟨hr, hs⟩ := Prod.mk.injEq .. ▸ h
    subst hs
    right
    rw [hget, hr]
  | none =>
    rw [hget] at h
    cases hlg : loadGeoJSON w s path with
    | mk rg sg =>
      rw [hlg] at h
      have hdc : sg.dataCache = s.dataCache := by
        have := loadGeoJSON_dataCache w s path
        rw [hlg] at this
        exact this
      cases rg with
      | some data =>
        simp only at h
        obtain ⟨hr, hs⟩ := Prod.mk.injEq .. ▸ h
        subst hs
        right
        rw [← hr]
        exact DataCache.get_set_same sg.dataCache key (some data)
      | none =>
        simp only at h
        obtain ⟨hr, hs⟩ := Prod.mk.injEq .. ▸ h
        subst hs
        left
        rw [hdc]
        exact hget

theorem mono_loadIf (w : World) (rf : List CacheKey) (key : CacheKey) (path : String) (s : Session) :
    CachePreserves s (loadIf w rf key path s) := by
  unfold loadIf
  by_cases hcond : rf.contains key && (s.dataCache.get key).isNone
  · simp only [hcond, if_true]
    cases hldf : loadDataFile w s path key with
    | mk r s1 =>
      have hm : CachePreserves s s1 := by
        have := mono_loadDataFile w s path key
        rw [hldf] at this
        exact this
      have hkey : s1.dataCache.get key = none ∨ s1.dataCache.get key = r :=
        loadDataFile_get_key w s path key r s1 hldf
      refine cachePreserves_trans hm ⟨fun u v h => h, ?_⟩
      intro k v h
      exact DataCache.get_set_preserves s1.dataCache key r hkey k v h
  · simp only [hcond]
    exact cachePreserves_refl s

theorem mono_communitiesStep (w : World) (s : Session) :
    CachePreserves s
      (match s.dataCache.communities with
       | some _ => s
       | none =>
         match loadGeoJSON w s "/data/community-borders.json" with
         | (r, s0) => { s0 with dataCache := s0.dataCache.set .communities r }) := by
  cases hc : s.dataCache.communities with
  | some c => exact cachePreserves_refl s
  | none =>
    cases hlg : loadGeoJSON w s "/data/community-borders.json" with
    | mk r s0 =>
      have hm : CachePreserves s s0 := by
        have := mono_loadGeoJSON w s "/data/community-borders.json"
        rw [hlg] at this
        exact this
      have hdc : s0.dataCache = s.dataCache := by
        have := loadGeoJSON_dataCache w s "/data/community-borders.json"
        rw [hlg] at this
        exact this
      refine cachePreserves_trans hm ⟨fun u v h => h, ?_⟩
      intro k v h
      exact DataCache.get_set_preserves s0.dataCache .communities r
        (Or.inl (by rw [hdc]; exact hc)) k v h

theorem mono_loadAllData (w : World) (s : Session) (rf : List CacheKey) :
    CachePreserves s (loadAllData w s rf).2 := by
  unfold loadAllData
  refine cachePreserves_trans (mono_communitiesStep w s) ?_
  refine cachePreserves_trans (mono_loadIf w rf .lrtStops "/data/lrt-stops.json" _) ?_
  refine cachePreserves_trans (mono_loadIf w rf .lrtLines "/data/lrt-lines.json" _) ?_
  refine cachePreserves_trans (mono_loadIf w rf .parks "/data/parks.json" _) ?_
  refine cachePreserves_trans (mono_loadIf w rf .trafficIncidents "/data/traffic-incidents.json" _) ?_
  refine cachePreserves_trans (mono_loadIf w rf .trafficSignals "/data/traffic-signals.json" _) ?_
  refine cachePreserves_trans (mono_loadIf w rf .floodZones "/data/flood-01-chance.json" _) ?_
  exact mono_loadIf w rf .majorRoads "/data/major-roads.json" _

theorem mono_loadCommunitiesOnly (w : World) (s : Session) :
    CachePreserves s (loadCommunitiesOnly w s).2 := by
  unfold loadCommunitiesOnly
  cases hc : s.dataCache.communities with
  | some c => exact cachePreserves_refl s
  | none =>
    cases hlg : loadGeoJSON w s "/data/community-borders.json" with
    | mk r s0 =>
      have hm : CachePreserves s s0 := by
        have := mono_loadGeoJSON w s "/data/community-borders.json"
        rw [hlg] at this
        exact this
      have hdc : s0.dataCache = s.dataCache := by
        have := loadGeoJSON_dataCache w s "/data/community-borders.json"
        rw [hlg] at this
        exact this
      refine cachePreserves_trans hm ⟨fun u v h => h, ?_⟩
      intro k v h
      exact DataCache.get_set_preserves s0.dataCache .communities r
        (Or.inl (by rw [hdc]; exact hc)) k v h

theorem mono_calculateCommunityStats (w : World) (s : Session) :
    CachePreserves s (calculateCommunityStats w s).2 := by
  unfold calculateCommunityStats
  cases hla : loadAllData w s [] with
  | mk data s1 =>
    have := mono_loadAllData w s []
    rw [hla] at this
    exact this

theorem mono_calculateLayerSpecificStats (w : World) (s : Session) (cf : Feature) (layer : String) :
    CachePreserves s (calculateLayerSpecificStats w s cf layer).2 := by
  unfold calculateLayerSpecificStats
  cases hla : loadAllData w s (requiredFilesFor layer) with
  | mk data s1 =>
    have := mono_loadAllData w s (requiredFilesFor layer)
    rw [hla] at this
    exact this

theorem mono_resultFor (w : World) (s : Session) (activeLayer : Option String) (f : Feature) :
    CachePreserves s (resultFor w s activeLayer f).2 := by
  unfold resultFor
  cases activeLayer with
  | none => exact cachePreserves_refl s
  | some layer =>
    by_cases hl : layer = ""
    · simp only [hl, if_true]
      exact cachePreserves_refl s
    · simp only [hl, if_false]
      cases hlcs : calculateLayerSpecificStats w s f layer with
      | mk ls s1 =>
        have := mono_calculateLayerSpecificStats w s f layer
        rw [hlcs] at this
        exact this

theorem mono_searchResultsLoop (w : World) (activeLayer : Option String) :
    ∀ (fs : List Feature) (s : Session), CachePreserves s (searchResultsLoop w activeLayer s fs).2 := by
  intro fs
  induction fs with
  | nil => intro s; exact cachePreserves_refl s
  | cons f fs ih =>
    intro s
    simp only [searchResultsLoop]
    cases hrf : resultFor w s activeLayer f with
    | mk r s1 =>
      have h1 : CachePreserves s s1 := by
        have := mono_resultFor w s activeLayer f
        rw [hrf] at this
        exact this
      cases hloop : searchResultsLoop w activeLayer s1 fs with
      | mk rs s2 =>
        have h2 : CachePreserves s1 s2 := by
          have := ih s1
          rw [hloop] at this
          exact this
        exact cachePreserves_trans h1 h2

theorem mono_searchCommunities (w : World) (s : Session) (t : Option String) (l : Option String) :
    CachePreserves s (searchCommunities w s t l).2 := by
  unfold searchCommunities
  cases t with
  | none => exact cachePreserves_refl s
  | some t0 =>
    by_cases hlen : t0.length < 2
    · simp only [hlen, if_true]
      exact cachePreserves_refl s
    · simp only [hlen, if_false]
      cases hlc : loadCommunitiesOnly w s with
      | mk r s1 =>
        have h1 : CachePreserves s s1 := by
          have := mono_loadCommunitiesOnly w s
          rw [hlc] at this
          exact this
        cases r with
        | none => exact h1
        | some communities =>
          simp only []
          cases hloop : searchResultsLoop w l s1
              ((communities.features.filter (communityMatchesTerm (strToLower t0))).take 10) with
          | mk rs s2 =>
            have h2 : CachePreserves s1 s2 := by
              have := mono_searchResultsLoop w l
                ((communities.features.filter (communityMatchesTerm (strToLower t0))).take 10) s1
              rw [hloop] at this
              exact this
            exact cachePreserves_trans h1 h2

theorem loadGeoJSON_repeat (w : World) (s : Session) (url : String) (v : FeatureCollection)
    (s1 : Session) (h : loadGeoJSON w s url = (some v, s1)) :
    loadGeoJSON w s1 url = (some v, s1) := by
  unfold loadGeoJSON at h ⊢
  cases hlk : s.geoJsonCache.lookup url with
  | some data =>
    rw [hlk] at h
    obtain ⟨hr, hs⟩ := Prod.mk.injEq .. ▸ h
    subst hs
    rw [hlk, hr]
  | none =>
    rw [hlk] at h
    cases hwf : w.files.lookup url with
    | some data =>
      rw [hwf] at h
      obtain ⟨hr, hs⟩ := Prod.mk.injEq .. ▸ h
      subst hs
      have : List.lookup url ((url, data) :: s.geoJsonCache) = some data := by
        rw [List.lookup]
        simp
      rw [show ({ s with geoJsonCache := (url, data) :: s.geoJsonCache, fetches := s.fetches + 1 } : Session).geoJsonCache = (url, data) :: s.geoJsonCache from rfl, this, hr]
    | none =>
      rw [hwf] at h
      exact absurd (Prod.mk.injEq .. ▸ h).1 (by intro hx; cases hx)

theorem loadDataFile_repeat (w : World) (s : Session) (path : String) (key : CacheKey)
    (v : FeatureCollection) (s1 : Session) (h : loadDataFile w s path key = (some v, s1)) :
    loadDataFile w s1 path key = (some v, s1) := by
  unfold loadDataFile at h ⊢
  cases hget : s.dataCache.get key with
  | some u =>
    rw [hget] at h
    obtain ⟨hr, hs⟩ := Prod.mk.injEq .. ▸ h
    subst hs
    rw [hget, hr]
  | none =>
    rw [hget] at h
    cases hlg : loadGeoJSON w s path with
    | mk rg sg =>
      rw [hlg] at h
      cases rg with
      | some data =>
        simp only at h
        obtain ⟨hr, hs⟩ := Prod.mk.injEq .. ▸ h
        have hk : s1.dataCache.get key = some data := by
          rw [← hs]
          exact DataCache.get_set_same sg.dataCache key (some data)
        rw [hk, hr]
      | none =>
        simp only at h
        exact absurd (Prod.mk.injEq .. ▸ h).1 (by intro hx; cases hx)

/-- C4: once a source loads successfully, every later request for it
returns the identical cached collection with the session unchanged (hence
no new fetch and no re-parse), and every operation of the module only
extends the two caches: no entry is ever invalidated within a session. -/
theorem c4_theorem :
    (∀ (w : World) (s : Session) (url : String) (v : FeatureCollection) (s1 : Session),
        loadGeoJSON w s url = (some v, s1) → loadGeoJSON w s1 url = (some v, s1)) ∧
    (∀ (w : World) (s : Session) (path : String) (key : CacheKey) (v : FeatureCollection) (s1 : Session),
        loadDataFile w s path key = (some v, s1) → loadDataFile w s1 path key = (some v, s1)) ∧
    (∀ (w : World) (s : Session) (url : String), CachePreserves s (loadGeoJSON w s url).2) ∧
    (∀ (w : World) (s : Session) (path : String) (key : CacheKey), CachePreserves s (loadDataFile w s path key).2) ∧
    (∀ (w : World) (s : Session), CachePreserves s (loadCommunitiesOnly w s).2) ∧
    (∀ (w : World) (s : Session) (rf : List CacheKey), CachePreserves s (loadAllData w s rf).2) ∧
    (∀ (w : World) (s : Session), CachePreserves s (calculateCommunityStats w s).2) ∧
    (∀ (w : World) (s : Session) (cf : Feature) (layer : String),
        CachePreserves s (calculateLayerSpecificStats w s cf layer).2) ∧
    (∀ (w : World) (s : Session) (t l : Option String), CachePreserves s (searchCommunities w s t l).2) :=
  ⟨loadGeoJSON_repeat, loadDataFile_repeat, mono_loadGeoJSON, mono_loadDataFile,
   mono_loadCommunitiesOnly, mono_loadAllData, mono_calculateCommunityStats,
   mono_calculateLayerSpecificStats, mono_searchCommunities⟩

def c4World : World := ⟨[("/data/community-borders.json", ⟨[exCommunity]⟩)]⟩

def c4Session0 : Session := ⟨[], {}, 0⟩

def c4Session1 : Session :=
  ⟨[("/data/community-borders.json", ⟨[exCommunity]⟩)], {}, 1⟩

/-- C4, witness: a concrete first load, its cache-hit repetition, and the
preservation of the cached entry across a search. -/
theorem c4_witness :
    loadGeoJSON c4World c4Session0 "/data/community-borders.json" = (some ⟨[exCommunity]⟩, c4Session1) ∧
    loadGeoJSON c4World c4Session1 "/data/community-borders.json" = (some ⟨[exCommunity]⟩, c4Session1) ∧
    (c4Session1.geoJsonCache.lookup "/data/community-borders.json" = some ⟨[exCommunity]⟩ ∧
      (searchCommunities c4World c4Session1 (some "pan") none).2.geoJsonCache.lookup "/data/community-borders.json" = some ⟨[exCommunity]⟩) :=
  ⟨rfl,
   c4_theorem.1 c4World c4Session0 "/data/community-borders.json" ⟨[exCommunity]⟩ c4Session1 rfl,
   rfl,
   (c4_theorem.2.2.2.2.2.2.2.2 c4World c4Session1 (some "pan") none).1
     "/data/community-borders.json" ⟨[exCommunity]⟩ rfl⟩

end UrbanInsight

namespace UrbanInsight

/-- A vertex position: an array whose first two entries are numbers. -/
def isPos : CoordVal → Bool
  | .arr (.num _ :: .num _ :: _) => true
  | _ => false

/-- A well-formed line coordinate payload: either a LineString of at least
two positions, or a MultiLineString whose constituents each hold at least
two positions (GeoJSON requires two or more positions per line string). -/
def wfLineCoords : CoordVal → Bool
  | .num _ => false
  | .arr l =>
    (l.all isPos && decide (2 ≤ l.length)) ||
    l.all (fun m =>
      match m with
      | .arr ms => ms.all isPos && decide (2 ≤ ms.length)
      | .num _ => false)

/-- The first, the middle (index length over 2) and the last vertex of a
vertex list, as the specification describes the sampling. -/
def firstMidLast (l : List CoordVal) : List CoordVal :=
  match l.get? 0, l.get? (l.length / 2), l.getLast? with
  | some a, some b, some c => [a, b, c]
  | _, _, _ => []

/-- Modelled from the claim wording, for comparison with the source
sampling: the first, middle and last vertex of the line and, for a
MultiLineString, of each constituent line string. -/
def specSampledPoints (c : CoordVal) : List CoordVal :=
  match c with
  | .num _ => []
  | .arr l =>
    if l.all isPos then firstMidLast l
    else (l.map (fun m =>
      match m with
      | .arr ms => firstMidLast ms
      | .num _ => [])).flatten

/-- The per-point polygon test applied to a well-formed position. -/
def posPointTest (og : OLGeom) : CoordVal → Bool
  | .arr (.num lon :: .num lat :: _) => olPointTest og lon lat
  | _ => false

theorem sampleLineString_mem (l : List CoordVal) (h2 : 2 ≤ l.length) (p : CoordVal) :
    p ∈ sampleLineString l ↔ p ∈ firstMidLast l := by
  by_cases h3 : 2 < l.length
  · obtain ⟨f, hf⟩ : ∃ f, l[0]? = some f := by
      cases l with
      | nil => simp at h2
      | cons a t => exact ⟨a, by simp⟩
    obtain ⟨lst, hlst⟩ : ∃ x, l.getLast? = some x := by
      cases l with
      | nil => simp at h2
      | cons a t => exact ⟨(a :: t).getLast (by simp), List.getLast?_eq_getLast _ _⟩
    obtain ⟨mid, hmid⟩ : ∃ m, l[l.length / 2]? = some m := by
      have hlt : l.length / 2 < l.length := Nat.div_lt_self (by omega) (by omega)
      exact ⟨l[l.length / 2], List.getElem?_eq_getElem hlt⟩
    simp [sampleLineString, firstMidLast, hf, hlst, hmid, h3]
  · have hlen : l.length = 2 := by omega
    obtain ⟨a, b, rfl⟩ : ∃ a b, l = [a, b] := by
      match l, hlen with
      | [a, b], _ => exact ⟨a, b, rfl⟩
    simp [sampleLineString, firstMidLast]
    try tauto
theorem isPos_shape (p : CoordVal) (hp : isPos p = true) :
    ∃ a b rest, p = .arr (.num a :: .num b :: rest) := by
  match p, hp with
  | .arr (.num a :: .num b :: rest), _ => exact ⟨a, b, rest, rfl⟩

theorem lineSamplePoints_mem_spec (cs : CoordVal) (hwf : wfLineCoords cs = true) (p : CoordVal) :
    p ∈ lineSamplePoints cs ↔ p ∈ specSampledPoints cs := by
  match cs with
  | .num q => simp [wfLineCoords] at hwf
  | .arr l =>
    simp only [wfLineCoords, Bool.or_eq_true, Bool.and_eq_true, decide_eq_true_eq] at hwf
    rcases hwf with ⟨hall, hlen⟩ | hmls
    · have hnum : isNumHeaded (.arr l) = true := by
        cases l with
        | nil => simp at hlen
        | cons a t =>
          have ha : isPos a = true := List.all_eq_true.mp hall a (by simp)
          obtain ⟨x, y, rest, rfl⟩ := isPos_shape a ha
          rfl
      simp only [lineSamplePoints, hnum, if_true, specSampledPoints, hall, if_true]
      exact sampleLineString_mem l hlen p
    · cases l with
      | nil =>
        simp [lineSamplePoints, specSampledPoints, isNumHeaded, isArrHeaded, CoordVal.idx,
          firstMidLast]
      | cons m rest =>
        have hm := List.all_eq_true.mp hmls m (by simp)
        obtain ⟨ms, rfl⟩ : ∃ ms, m = .arr ms := by
          cases m with
          | num q => simp at hm
          | arr ms => exact ⟨ms, rfl⟩
        simp only [Bool.and_eq_true, decide_eq_true_eq] at hm
        obtain ⟨hmsall, hmslen⟩ := hm
        obtain ⟨p0, ps, rfl⟩ : ∃ p0 ps, ms = p0 :: ps := by
          cases ms with
          | nil => simp at hmslen
          | cons p0 ps => exact ⟨p0, ps, rfl⟩
        have hp0 : isPos p0 = true := List.all_eq_true.mp hmsall p0 (by simp)
        obtain ⟨x, y, r0, rfl⟩ := isPos_shape p0 hp0
        have hnum : isNumHeaded (.arr (.arr (.arr (.num x :: .num y :: r0) :: ps) :: rest)) = false := rfl
        have harr : isArrHeaded (.arr (.arr (.arr (.num x :: .num y :: r0) :: ps) :: rest)) = true := rfl
        have hallpos : ((CoordVal.arr (CoordVal.arr (CoordVal.num x :: CoordVal.num y :: r0) :: ps)) :: rest).all isPos = false := by
          simp [isPos]
        simp only [lineSamplePoints, hnum, harr, Bool.false_eq_true, if_false, if_true,
          specSampledPoints, hallpos, List.mem_flatten, List.mem_map]
        constructor
        · rintro ⟨sub, ⟨mm, hmm, rfl⟩, hpsub⟩
          refine ⟨_, ⟨mm, hmm, rfl⟩, ?_⟩
          have hmmwf := List.all_eq_true.mp hmls mm hmm
          cases mm with
          | num q => simp at hmmwf
          | arr mss =>
            simp only [Bool.and_eq_true, decide_eq_true_eq] at hmmwf
            have hpos2 : 0 < mss.length := by omega
            simp only [hpos2, if_true] at hpsub
            exact (sampleLineString_mem mss hmmwf.2 p).mp hpsub
        · rintro ⟨sub, ⟨mm, hmm, rfl⟩, hpsub⟩
          refine ⟨_, ⟨mm, hmm, rfl⟩, ?_⟩
          have hmmwf := List.all_eq_true.mp hmls mm hmm
          cases mm with
          | num q => simp at hmmwf
          | arr mss =>
            simp only [Bool.and_eq_true, decide_eq_true_eq] at hmmwf
            have hpos2 : 0 < mss.length := by omega
            simp only [hpos2, if_true]
            exact (sampleLineString_mem mss hmmwf.2 p).mpr hpsub

theorem lineSomeCheck_all_pos (og : OLGeom) :
    ∀ (pts : List CoordVal), (∀ p ∈ pts, isPos p = true) →
      lineSomeCheck og pts = .ok (pts.any (posPointTest og)) := by
  intro pts
  induction pts with
  | nil => intro h; rfl
  | cons p ps ih =>
    intro h
    obtain ⟨a, b, rest, rfl⟩ := isPos_shape p (h p (by simp))
    have hrec := ih (fun q hq => h q (by simp [hq]))
    have hlt : ¬ (rest.length + 1 + 1 < 2) := by omega
    simp only [lineSomeCheck, CoordVal.truthy, CoordVal.jsLenLt, CoordVal.jsLength,
      destructurePair, List.any_cons, CoordVal.asNum]
    cases hol : olPointTest og a b with
    | true => simp [posPointTest, hol, hlt]
    | false => simp [posPointTest, hol, hrec, hlt]

theorem isPointInCommunity_pos (g : Geometry) (og : OLGeom) (hg : readGeometry g = .ok og)
    (p : CoordVal) (hp : isPos p = true) :
    isPointInCommunity (some p) (some g) = posPointTest og p := by
  obtain ⟨a, b, rest, rfl⟩ := isPos_shape p hp
  simp only [isPointInCommunity, CoordVal.truthy, if_true, tryPointMain, destructurePair, hg,
    posPointTest]
  rfl

theorem mem_of_sampleLineString (p : CoordVal) :
    ∀ (l : List CoordVal), p ∈ sampleLineString l → p ∈ l := by
  have hmemOf : ∀ (l : List CoordVal) (n : Nat) (a : CoordVal), l[n]? = some a → a ∈ l :=
    fun l n a h => List.get?_mem (by rw [List.get?_eq_getElem?]; exact h)
  intro l hin
  cases hl0 : l[0]? with
  | none => simp [sampleLineString, hl0] at hin
  | some f =>
    cases hll : l.getLast? with
    | none => simp [sampleLineString, hl0, hll] at hin
    | some lst =>
      have hfmem : f ∈ l := hmemOf l 0 f hl0
      have hlstmem : lst ∈ l := by
        cases l with
        | nil => simp at hll
        | cons a t =>
          rw [List.getLast?_eq_getLast _ (by simp)] at hll
          have hmem := List.getLast_mem (l := a :: t) (by simp)
          have heq : (a :: t).getLast (by simp) = lst := by injection hll
          rw [heq] at hmem
          exact hmem
      by_cases h2 : 2 < l.length
      · cases hm : l[l.length / 2]? with
        | none =>
          simp [sampleLineString, hl0, hll, hm, h2] at hin
          rcases hin with rfl | rfl
          · exact hfmem
          · exact hlstmem
        | some mid =>
          have hmidmem : mid ∈ l := hmemOf l (l.length / 2) mid hm
          simp only [sampleLineString, List.get?_eq_getElem?, hl0, hll, hm, h2, if_true,
            List.cons_append, List.nil_append, List.mem_cons, List.mem_singleton] at hin
          rcases hin with rfl | rfl | hin
          · exact hfmem
          · exact hmidmem
          · simp at hin
            subst hin
            exact hlstmem
      · simp only [sampleLineString, List.get?_eq_getElem?, hl0, hll, h2, if_false,
          List.cons_append, List.nil_append, List.mem_cons, List.mem_singleton] at hin
        rcases hin with rfl | hin
        · exact hfmem
        · simp at hin
          subst hin
          exact hlstmem

theorem lineSamplePoints_all_pos (cs : CoordVal) (hwf : wfLineCoords cs = true) :
    ∀ p ∈ lineSamplePoints cs, isPos p = true := by
  intro p hp
  match cs with
  | .num q => simp [lineSamplePoints] at hp
  | .arr l =>
    simp only [lineSamplePoints] at hp
    by_cases hnum : isNumHeaded (.arr l)
    · simp only [hnum, if_true] at hp
      simp only [wfLineCoords, Bool.or_eq_true, Bool.and_eq_true, decide_eq_true_eq] at hwf
      rcases hwf with ⟨hall, hlen⟩ | hmls
      · exact List.all_eq_true.mp hall p (mem_of_sampleLineString p l hp)
      · exfalso
        cases l with
        | nil => simp [sampleLineString] at hp
        | cons m rest =>
          have hm := List.all_eq_true.mp hmls m (by simp)
          cases m with
          | num q => simp at hm
          | arr mss =>
            simp only [Bool.and_eq_true, decide_eq_true_eq] at hm
            obtain ⟨p0, ps, rfl⟩ : ∃ p0 ps, mss = p0 :: ps := by
              cases mss with
              | nil => simp at hm
              | cons p0 ps => exact ⟨p0, ps, rfl⟩
            have hp0 : isPos p0 = true := List.all_eq_true.mp hm.1 p0 (by simp)
            obtain ⟨x, y, r0, rfl⟩ := isPos_shape p0 hp0
            simp [isNumHeaded, CoordVal.idx] at hnum
    · simp only [hnum, Bool.false_eq_true, if_false] at hp
      by_cases harr : isArrHeaded (.arr l)
      · simp only [harr, if_true, List.mem_flatten, List.mem_map] at hp
        obtain ⟨sub, ⟨mm, hmm, rfl⟩, hpsub⟩ := hp
        simp only [wfLineCoords, Bool.or_eq_true, Bool.and_eq_true, decide_eq_true_eq] at hwf
        rcases hwf with ⟨hall, hlen⟩ | hmls
        · exfalso
          cases l with
          | nil => simp at hlen
          | cons a t =>
            have ha : isPos a = true := List.all_eq_true.mp hall a (by simp)
            obtain ⟨x, y, r0, rfl⟩ := isPos_shape a ha
            simp [isArrHeaded, CoordVal.idx] at harr
        · have hmmwf := List.all_eq_true.mp hmls mm hmm
          cases mm with
          | num q => simp at hpsub
          | arr mss =>
            simp only [Bool.and_eq_true, decide_eq_true_eq] at hmmwf
            by_cases hpos2 : 0 < mss.length
            · simp only [hpos2, if_true] at hpsub
              exact List.all_eq_true.mp hmmwf.1 p (mem_of_sampleLineString p mss hpsub)
            · simp [hpos2] at hpsub
      · simp [harr] at hp

theorem list_any_congr {α : Type _} (p q : α → Bool) :
    ∀ (l : List α), (∀ x ∈ l, p x = q x) → l.any p = l.any q := by
  intro l h
  induction l with
  | nil => rfl
  | cons x xs ih =>
    simp only [List.any_cons, h x (by simp), ih (fun y hy => h y (by simp [hy]))]

/-- C7: for every well-formed line geometry, the line-in-boundary test
samples exactly the first, middle and last vertex of the line (of each
constituent for a MultiLineString), and returns true exactly when at
least one sampled point passes the point-in-boundary test. -/
theorem c7_theorem (cs : CoordVal) (g : Geometry) (hwf : wfLineCoords cs = true) :
    (∀ p, p ∈ lineSamplePoints cs ↔ p ∈ specSampledPoints cs) ∧
    isLineInCommunity (some cs) (some g) =
      (lineSamplePoints cs).any (fun p => isPointInCommunity (some p) (some g)) := by
  refine ⟨lineSamplePoints_mem_spec cs hwf, ?_⟩
  have htr : cs.truthy = true := by
    match cs, hwf with
    | .arr l, _ => rfl
  cases hrg : readGeometry g with
  | error e =>
    have herr : readGeometry g = .error () := by
      cases e
      exact hrg
    rw [isLineInCommunity_parse_error g herr (some cs)]
    symm
    simp only [List.any_eq_false]
    intro p hp
    simp [isPointInCommunity_parse_error g herr]
  | ok og =>
    simp only [isLineInCommunity, htr, Bool.not_true, Bool.false_eq_true, if_false, hrg]
    rw [lineSomeCheck_all_pos og _ (lineSamplePoints_all_pos cs hwf)]
    simp only []
    have hcongr : ∀ p ∈ lineSamplePoints cs,
        posPointTest og p = isPointInCommunity (some p) (some g) := fun p hp =>
      (isPointInCommunity_pos g og hrg p (lineSamplePoints_all_pos cs hwf p hp)).symm
    exact list_any_congr _ _ _ hcongr

def c7Line : CoordVal :=
  .arr [.arr [.num 9, .num 9], .arr [.num 2, .num 2], .arr [.num 9, .num 9]]

/-- C7, witness: the sampling equivalence on a concrete three-vertex line
whose middle vertex lies inside the boundary square. -/
theorem c7_witness :
    wfLineCoords c7Line = true ∧
    ((.arr [.num 2, .num 2] : CoordVal) ∈ lineSamplePoints c7Line ↔
      (.arr [.num 2, .num 2] : CoordVal) ∈ specSampledPoints c7Line) ∧
    isLineInCommunity (some c7Line) (some (exPolygonGeom 0 4)) =
      (lineSamplePoints c7Line).any (fun p => isPointInCommunity (some p) (some (exPolygonGeom 0 4))) :=
  ⟨rfl,
   (c7_theorem c7Line (exPolygonGeom 0 4) rfl).1 _,
   (c7_theorem c7Line (exPolygonGeom 0 4) rfl).2⟩

end UrbanInsight

namespace UrbanInsight

theorem isPointInCommunity_none_geom (p : Option CoordVal) :
    isPointInCommunity p none = false := by
  cases p <;> rfl

theorem map_entry_if_bump (i : Nat) (c0 : CommunityStat) (bump : CommunityStat → CommunityStat)
    (m : CommunityStat → Bool) (hm : m c0 = false) (st : List CommunityStat)
    (h : st[i]? = some c0) :
    (st.map (fun c => if m c then bump c else c))[i]? = some c0 := by
  rw [List.getElem?_map, h]
  simp [hm]

theorem processPointFeature_entry (comms : List Feature) (bump : CommunityStat → CommunityStat)
    (i : Nat) (c0 : CommunityStat) (hm : ∀ p, idMatches comms c0.id p = false)
    (st : List CommunityStat) (f : Feature) (h : st[i]? = some c0) :
    (processPointFeature comms bump st f)[i]? = some c0 := by
  obtain ⟨props, geo⟩ := f
  cases geo with
  | none => exact h
  | some g =>
    obtain ⟨t, c?⟩ := g
    cases c? with
    | none => exact h
    | some coords =>
      simp only [processPointFeature]
      by_cases hc : coords.truthy && coords.jsLenGe 2
      · simp only [hc, if_true]
        exact map_entry_if_bump i c0 bump _ (hm (some coords)) st h
      · simp [hc, h]

theorem processParkFeature_entry (comms : List Feature) (i : Nat) (c0 : CommunityStat)
    (hm : ∀ p, idMatches comms c0.id p = false)
    (st : List CommunityStat) (f : Feature) (h : st[i]? = some c0) :
    (processParkFeature comms st f)[i]? = some c0 := by
  have hinner : ∀ (pts : List (Option CoordVal)) (st2 : List CommunityStat),
      st2[i]? = some c0 →
      ((pts.foldl (fun st3 point => st3.map fun community =>
        if idMatches comms community.id point then bumpParks community else community) st2))[i]? = some c0 := by
    intro pts
    induction pts with
    | nil => intro st2 h2; exact h2
    | cons p ps ih =>
      intro st2 h2
      rw [List.foldl_cons]
      exact ih _ (map_entry_if_bump i c0 bumpParks _ (hm p) st2 h2)
  obtain ⟨props, geo⟩ := f
  cases geo with
  | none => exact h
  | some g =>
    obtain ⟨t, c?⟩ := g
    cases c? with
    | none => exact h
    | some coords =>
      simp only [processParkFeature]
      by_cases hc : coords.truthy && coords.jsLenGe 2
      · simp only [hc, if_true]
        exact hinner _ st h
      · simp [hc, h]

theorem foldl_entry (i : Nat) (c0 : CommunityStat)
    (step : List CommunityStat → Feature → List CommunityStat)
    (hstep : ∀ st f, st[i]? = some c0 → (step st f)[i]? = some c0) :
    ∀ (fs : List Feature) (st : List CommunityStat), st[i]? = some c0 →
      (fs.foldl step st)[i]? = some c0 := by
  intro fs
  induction fs with
  | nil => intro st h; exact h
  | cons f fs ih => intro st h; rw [List.foldl_cons]; exact ih _ (hstep st f h)

theorem optPass_entry (i : Nat) (c0 : CommunityStat) (coll : Option FeatureCollection)
    (k : Nat) (hk : 0 < k) (step : List CommunityStat → Feature → List CommunityStat)
    (hstep : ∀ st f, st[i]? = some c0 → (step st f)[i]? = some c0)
    (st : List CommunityStat) (h : st[i]? = some c0) :
    (match coll with
     | some l => runChunked k step st l.features
     | none => st)[i]? = some c0 := by
  cases coll with
  | none => exact h
  | some l =>
    show (runChunked k step st l.features)[i]? = some c0
    rw [runChunked_eq_foldl k hk]
    exact foldl_entry i c0 step hstep l.features st h

/-- C9: a boundary whose geometry is missing or unparseable (and whose id
resolves to itself) still appears in the full-aggregation result at its
position, with every spatial metric zero or false and the scalar
attributes carried over from its properties. -/
theorem c9_theorem (data : DataCache) (comms : FeatureCollection) (b : Feature) (i : Nat)
    (hc : data.communities = some comms)
    (hi : comms.features[i]? = some b)
    (hfind : comms.features.find? (fun cf => cf.properties.id == b.properties.id) = some b)
    (hbad : b.geometry = none ∨ ∃ g, b.geometry = some g ∧ readGeometry g = .error ()) :
    (calculateStatsPure data)[i]? = some
      { id := b.properties.id
        name := b.properties.name.getD ""
        code := b.properties.comm_code.getD ""
        sector := b.properties.sector.getD ""
        crime := b.properties.crime_by_community_total_crime.getD 0
        trafficIncidents := 0
        parks := 0
        trafficSignals := 0
        lrtStops := 0
        floodRisk := false
        geometry := b.geometry } := by
  have hrec : initCommunityStat b =
      { id := b.properties.id
        name := b.properties.name.getD ""
        code := b.properties.comm_code.getD ""
        sector := b.properties.sector.getD ""
        crime := b.properties.crime_by_community_total_crime.getD 0
        trafficIncidents := 0
        parks := 0
        trafficSignals := 0
        lrtStops := 0
        floodRisk := false
        geometry := b.geometry } := rfl
  rw [← hrec]
  have hmatch : ∀ p, idMatches comms.features (initCommunityStat b).id p = false := by
    intro p
    simp only [idMatches, initCommunityStat, hfind]
    rcases hbad with hnone | ⟨g, hg, herr⟩
    · rw [hnone]
      exact isPointInCommunity_none_geom p
    · rw [hg]
      exact isPointInCommunity_parse_error g herr p
  simp only [calculateStatsPure, calculateStatsPureChunked, hc]
  have hinit : (comms.features.map initCommunityStat)[i]? = some (initCommunityStat b) := by
    rw [List.getElem?_map, hi]
    rfl
  have h1 := optPass_entry i (initCommunityStat b) data.trafficIncidents 100 (by decide) _
    (fun st f h => processPointFeature_entry comms.features bumpTrafficIncidents i _ hmatch st f h)
    _ hinit
  have h2 := optPass_entry i (initCommunityStat b) data.parks 50 (by decide) _
    (fun st f h => processParkFeature_entry comms.features i _ hmatch st f h) _ h1
  have h3 := optPass_entry i (initCommunityStat b) data.trafficSignals 200 (by decide) _
    (fun st f h => processPointFeature_entry comms.features bumpTrafficSignals i _ hmatch st f h)
    _ h2
  have h4 := optPass_entry i (initCommunityStat b) data.lrtStops 200 (by decide) _
    (fun st f h => processPointFeature_entry comms.features bumpLrtStops i _ hmatch st f h)
    _ h3
  cases hfz : data.floodZones with
  | none => exact h4
  | some coll =>
    show (coll.features.foldl floodZoneStep _)[i]? = _
    rw [foldl_floodZoneStep]
    exact h4

def c9Boundary : Feature :=
  { properties := ⟨some 7, some "Ghost", some "GHO", some "N", some 3, none⟩,
    geometry := none }

def c9Data : DataCache :=
  { communities := some ⟨[c9Boundary]⟩, trafficIncidents := some ⟨[exPointFeature 2 2]⟩ }

/-- C9, witness: a geometry-less boundary evaluated with a point feature
present; its record keeps the carried scalars and zero counters. -/
theorem c9_witness :
    c9Data.communities = some ⟨[c9Boundary]⟩ ∧
    (calculateStatsPure c9Data)[0]? = some
      ⟨some 7, "Ghost", "GHO", "N", 3, 0, 0, 0, 0, false, none⟩ :=
  ⟨rfl,
   c9_theorem c9Data ⟨[c9Boundary]⟩ c9Boundary 0 rfl rfl (by rfl) (Or.inl (by rfl))⟩

end UrbanInsight

namespace UrbanInsight

/-- The boundary features of a loaded cache (empty when communities are
absent). -/
def commFeatures (data : DataCache) : List Feature :=
  match data.communities with
  | some c => c.features
  | none => []

/-- The feature count of an optional collection. -/
def collCount (o : Option FeatureCollection) : Nat :=
  match o with
  | some c => c.features.length
  | none => 0

theorem sum_map_if_bump (gp : CommunityStat → Nat) (bump : CommunityStat → CommunityStat)
    (m : CommunityStat → Bool) (hbump : ∀ c, gp (bump c) = gp c + 1) (st : List CommunityStat) :
    ((st.map (fun c => if m c then bump c else c)).map gp).sum = (st.map gp).sum + st.countP m := by
  induction st with
  | nil => rfl
  | cons c cs ih =>
    simp only [List.map_cons, List.sum_cons, List.countP_cons]
    by_cases hm : m c = true
    · rw [if_pos hm, if_pos hm, hbump, ih]
      omega
    · rw [if_neg hm, if_neg hm, ih]
      omega

theorem countP_id_of_map {ids : List (Option ℚ)} (st : List CommunityStat)
    (hids : st.map (fun c => c.id) = ids) (q : Option ℚ → Bool) :
    st.countP (fun c => q c.id) = ids.countP q := by
  subst hids
  rw [List.countP_map]
  rfl

theorem sum_map_zero_init (fs : List Feature) (gp : CommunityStat → Nat)
    (h : ∀ f, gp (initCommunityStat f) = 0) :
    ((fs.map initCommunityStat).map gp).sum = 0 := by
  induction fs with
  | nil => rfl
  | cons f fs ih =>
    simp only [List.map_cons, List.sum_cons, h, ih]

theorem point_pass_bound (comms : List Feature) (bump : CommunityStat → CommunityStat)
    (gp : CommunityStat → Nat) (ids : List (Option ℚ))
    (hbump : ∀ c, gp (bump c) = gp c + 1)
    (hbumpid : ∀ c, (bump c).id = c.id)
    (hdisj : ∀ p, ids.countP (fun i => idMatches comms i p) ≤ 1) :
    ∀ (fs : List Feature) (st : List CommunityStat), st.map (fun c => c.id) = ids →
      ((fs.foldl (processPointFeature comms bump) st).map gp).sum ≤ (st.map gp).sum + fs.length ∧
      (fs.foldl (processPointFeature comms bump) st).map (fun c => c.id) = ids := by
  intro fs
  induction fs with
  | nil => intro st hst; exact ⟨Nat.le_add_right _ _, hst⟩
  | cons f fs ih =>
    intro st hst
    rw [List.foldl_cons]
    have hstep_sum : ((processPointFeature comms bump st f).map gp).sum ≤ (st.map gp).sum + 1 := by
      obtain ⟨props, geo⟩ := f
      cases geo with
      | none => exact Nat.le_add_right _ _
      | some g =>
        obtain ⟨t, c?⟩ := g
        cases c? with
        | none => exact Nat.le_add_right _ _
        | some coords =>
          simp only [processPointFeature]
          by_cases hc : coords.truthy && coords.jsLenGe 2
          · simp only [hc, if_true]
            rw [sum_map_if_bump gp bump _ hbump st]
            have hcount : st.countP (fun c => idMatches comms c.id (some coords)) ≤ 1 :=
              (countP_id_of_map st hst (fun i => idMatches comms i (some coords))).trans_le
                (hdisj (some coords))
            omega
          · simp only [hc, Bool.false_eq_true, if_false]
            exact Nat.le_add_right _ _
    have hstep_id : (processPointFeature comms bump st f).map (fun c => c.id) = ids := by
      rw [processPointFeature_map_proj (fun c => c.id) comms bump hbumpid st f]
      exact hst
    obtain ⟨ihsum, ihid⟩ := ih (processPointFeature comms bump st f) hstep_id
    refine ⟨?_, ihid⟩
    simp only [List.length_cons]
    omega

theorem parkPoints_length_le (g : Geometry) (coords : CoordVal) :
    (parkPoints g coords).length ≤ 1 := by
  unfold parkPoints
  split
  · simp
  · split
    · split
      · simp
      · simp
    · simp

theorem park_inner_bound (comms : List Feature) (ids : List (Option ℚ))
    (hdisj : ∀ p, ids.countP (fun i => idMatches comms i p) ≤ 1) :
    ∀ (pts : List (Option CoordVal)) (st : List CommunityStat), st.map (fun c => c.id) = ids →
      (((pts.foldl (fun st2 point => st2.map fun community =>
          if idMatches comms community.id point then bumpParks community else community) st)).map
            (fun c => c.parks)).sum ≤ (st.map (fun c => c.parks)).sum + pts.length ∧
      ((pts.foldl (fun st2 point => st2.map fun community =>
          if idMatches comms community.id point then bumpParks community else community) st)).map
            (fun c => c.id) = ids := by
  intro pts
  induction pts with
  | nil => intro st hst; exact ⟨Nat.le_add_right _ _, hst⟩
  | cons p ps ih =>
    intro st hst
    rw [List.foldl_cons]
    have hstep_sum : (((st.map fun community =>
        if idMatches comms community.id p then bumpParks community else community)).map
          (fun c => c.parks)).sum ≤ (st.map (fun c => c.parks)).sum + 1 := by
      rw [sum_map_if_bump _ bumpParks _ (fun c => rfl) st]
      have hcount : st.countP (fun c => idMatches comms c.id p) ≤ 1 :=
        (countP_id_of_map st hst (fun i => idMatches comms i p)).trans_le (hdisj p)
      omega
    have hstep_id : ((st.map fun community =>
        if idMatches comms community.id p then bumpParks community else community)).map
          (fun c => c.id) = ids := by
      rw [map_if_bump (fun c => c.id) bumpParks _ (fun c => rfl) st]
      exact hst
    obtain ⟨ihsum, ihid⟩ := ih _ hstep_id
    refine ⟨?_, ihid⟩
    simp only [List.length_cons]
    omega

theorem park_pass_bound (comms : List Feature) (ids : List (Option ℚ))
    (hdisj : ∀ p, ids.countP (fun i => idMatches comms i p) ≤ 1) :
    ∀ (fs : List Feature) (st : List CommunityStat), st.map (fun c => c.id) = ids →
      ((fs.foldl (processParkFeature comms) st).map (fun c => c.parks)).sum ≤
        (st.map (fun c => c.parks)).sum + fs.length ∧
      (fs.foldl (processParkFeature comms) st).map (fun c => c.id) = ids := by
  intro fs
  induction fs with
  | nil => intro st hst; exact ⟨Nat.le_add_right _ _, hst⟩
  | cons f fs ih =>
    intro st hst
    rw [List.foldl_cons]
    have hstep : ((processParkFeature comms st f).map (fun c => c.parks)).sum ≤
        (st.map (fun c => c.parks)).sum + 1 ∧
        (processParkFeature comms st f).map (fun c => c.id) = ids := by
      obtain ⟨props, geo⟩ := f
      cases geo with
      | none => exact ⟨Nat.le_add_right _ _, hst⟩
      | some g =>
        obtain ⟨t, c?⟩ := g
        cases c? with
        | none => exact ⟨Nat.le_add_right _ _, hst⟩
        | some coords =>
          simp only [processParkFeature]
          by_cases hc : coords.truthy && coords.jsLenGe 2
          · simp only [hc, if_true]
            obtain ⟨hsum, hid⟩ := park_inner_bound comms ids hdisj
              (parkPoints (Geometry.mk t (some coords)) coords) st hst
            refine ⟨le_trans hsum ?_, hid⟩
            have := parkPoints_length_le (Geometry.mk t (some coords)) coords
            omega
          · simp only [hc, Bool.false_eq_true, if_false]
            exact ⟨Nat.le_add_right _ _, hst⟩
    obtain ⟨ihsum, ihid⟩ := ih _ hstep.2
    refine ⟨?_, ihid⟩
    simp only [List.length_cons]
    have h1 := hstep.1
    omega

theorem init_ids (fs : List Feature) :
    ((fs.map initCommunityStat).map (fun c => c.id)) = fs.map (fun f => f.properties.id) := by
  rw [List.map_map]
  rfl

/-- One optional chunked point-counting pass of calculateStatsPureChunked. -/
def optPointPass (comms : List Feature) (bump : CommunityStat → CommunityStat) (k : Nat)
    (coll : Option FeatureCollection) (st : List CommunityStat) : List CommunityStat :=
  match coll with
  | some l => runChunked k (processPointFeature comms bump) st l.features
  | none => st

/-- The optional chunked park pass of calculateStatsPureChunked. -/
def optParkPass (comms : List Feature) (k : Nat) (coll : Option FeatureCollection)
    (st : List CommunityStat) : List CommunityStat :=
  match coll with
  | some l => runChunked k (processParkFeature comms) st l.features
  | none => st

theorem statsPureChunked_eq (k1 k2 k3 k4 : Nat) (comms : FeatureCollection)
    (ti pk ts lrt ll fz mr : Option FeatureCollection) :
    calculateStatsPureChunked k1 k2 k3 k4 ⟨some comms, ti, pk, ts, lrt, ll, fz, mr⟩ =
    (match fz with
     | some coll => coll.features.foldl floodZoneStep
         (optPointPass comms.features bumpLrtStops k4 lrt
           (optPointPass comms.features bumpTrafficSignals k3 ts
             (optParkPass comms.features k2 pk
               (optPointPass comms.features bumpTrafficIncidents k1 ti
                 (comms.features.map initCommunityStat)))))
     | none =>
         optPointPass comms.features bumpLrtStops k4 lrt
           (optPointPass comms.features bumpTrafficSignals k3 ts
             (optParkPass comms.features k2 pk
               (optPointPass comms.features bumpTrafficIncidents k1 ti
                 (comms.features.map initCommunityStat))))) := rfl

theorem floodMatch_id (fz : Option FeatureCollection) (st : List CommunityStat) :
    (match fz with
     | some coll => coll.features.foldl floodZoneStep st
     | none => st) = st := by
  cases fz with
  | none => rfl
  | some coll => exact foldl_floodZoneStep coll.features st

theorem optPointPass_bound (comms : List Feature) (bump : CommunityStat → CommunityStat)
    (gp : CommunityStat → Nat) (ids : List (Option ℚ))
    (hbump : ∀ c, gp (bump c) = gp c + 1)
    (hbumpid : ∀ c, (bump c).id = c.id)
    (hdisj : ∀ p, ids.countP (fun i => idMatches comms i p) ≤ 1)
    (coll : Option FeatureCollection) (k : Nat) (hk : 0 < k)
    (st : List CommunityStat) (hst : st.map (fun c => c.id) = ids) :
    ((optPointPass comms bump k coll st).map gp).sum ≤ (st.map gp).sum + collCount coll ∧
    (optPointPass comms bump k coll st).map (fun c => c.id) = ids := by
  cases coll with
  | none => exact ⟨Nat.le_add_right _ _, hst⟩
  | some l =>
    simp only [optPointPass]
    rw [runChunked_eq_foldl k hk]
    exact point_pass_bound comms bump gp ids hbump hbumpid hdisj l.features st hst

theorem optParkPass_bound (comms : List Feature) (ids : List (Option ℚ))
    (hdisj : ∀ p, ids.countP (fun i => idMatches comms i p) ≤ 1)
    (coll : Option FeatureCollection) (k : Nat) (hk : 0 < k)
    (st : List CommunityStat) (hst : st.map (fun c => c.id) = ids) :
    ((optParkPass comms k coll st).map (fun c => c.parks)).sum ≤
      (st.map (fun c => c.parks)).sum + collCount coll ∧
    (optParkPass comms k coll st).map (fun c => c.id) = ids := by
  cases coll with
  | none => exact ⟨Nat.le_add_right _ _, hst⟩
  | some l =>
    simp only [optParkPass]
    rw [runChunked_eq_foldl k hk]
    exact park_pass_bound comms ids hdisj l.features st hst

theorem optPointPass_proj {α : Type _} (gp : CommunityStat → α) (comms : List Feature)
    (bump : CommunityStat → CommunityStat) (k : Nat) (hk : 0 < k)
    (hb : ∀ c, gp (bump c) = gp c) (coll : Option FeatureCollection) (st : List CommunityStat) :
    (optPointPass comms bump k coll st).map gp = st.map gp := by
  unfold optPointPass
  exact optPass_map_proj gp coll k hk _
    (fun st2 f => processPointFeature_map_proj gp comms bump hb st2 f) st

theorem optParkPass_proj {α : Type _} (gp : CommunityStat → α) (comms : List Feature)
    (k : Nat) (hk : 0 < k) (hb : ∀ c, gp (bumpParks c) = gp c)
    (coll : Option FeatureCollection) (st : List CommunityStat) :
    (optParkPass comms k coll st).map gp = st.map gp := by
  unfold optParkPass
  exact optPass_map_proj gp coll k hk _
    (fun st2 f => processParkFeature_map_proj gp comms hb st2 f) st

/-- C8: provided no candidate point matches more than one boundary entry
(each point falls in at most one community of the collection, which is what
counting "the communities a point falls in" presumes of a partition), every
point-count sum over the full-aggregation result is bounded by the size of
the respective source collection: no source feature is counted more than
once in total. -/
theorem c8_theorem (data : DataCache)
    (hdisj : ∀ p : Option CoordVal,
      ((commFeatures data).map (fun f => f.properties.id)).countP
        (fun i => idMatches (commFeatures data) i p) ≤ 1) :
    ((calculateStatsPure data).map (fun c => c.trafficIncidents)).sum ≤
      collCount data.trafficIncidents ∧
    ((calculateStatsPure data).map (fun c => c.parks)).sum ≤ collCount data.parks ∧
    ((calculateStatsPure data).map (fun c => c.trafficSignals)).sum ≤
      collCount data.trafficSignals ∧
    ((calculateStatsPure data).map (fun c => c.lrtStops)).sum ≤ collCount data.lrtStops := by
  obtain ⟨comm?, ti?, pk?, ts?, lrt?, ll?, fz?, mr?⟩ := data
  cases comm? with
  | none => exact ⟨Nat.zero_le _, Nat.zero_le _, Nat.zero_le _, Nat.zero_le _⟩
  | some comms =>
    simp only [commFeatures] at hdisj
    simp only [calculateStatsPure]
    rw [statsPureChunked_eq, floodMatch_id]
    have hk100 : (0:Nat) < 100 := by decide
    have hk50 : (0:Nat) < 50 := by decide
    have hk200 : (0:Nat) < 200 := by decide
    set ids := comms.features.map (fun f => f.properties.id) with hids
    set s0 := comms.features.map initCommunityStat with hs0
    set s1 := optPointPass comms.features bumpTrafficIncidents 100 ti? s0 with hs1
    set s2 := optParkPass comms.features 50 pk? s1 with hs2
    set s3 := optPointPass comms.features bumpTrafficSignals 200 ts? s2 with hs3
    set s4 := optPointPass comms.features bumpLrtStops 200 lrt? s3 with hs4
    have h0id : s0.map (fun c => c.id) = ids := init_ids comms.features
    have z_ti : (s0.map (fun c => c.trafficIncidents)).sum = 0 :=
      sum_map_zero_init comms.features _ (fun f => rfl)
    have z_pk : (s0.map (fun c => c.parks)).sum = 0 :=
      sum_map_zero_init comms.features _ (fun f => rfl)
    have z_ts : (s0.map (fun c => c.trafficSignals)).sum = 0 :=
      sum_map_zero_init comms.features _ (fun f => rfl)
    have z_lrt : (s0.map (fun c => c.lrtStops)).sum = 0 :=
      sum_map_zero_init comms.features _ (fun f => rfl)
    obtain ⟨h1sum, h1id⟩ := optPointPass_bound comms.features bumpTrafficIncidents
      (fun c => c.trafficIncidents) ids (fun c => rfl) (fun c => rfl) hdisj ti? 100 hk100 s0 h0id
    rw [← hs1] at h1sum h1id
    obtain ⟨h2sum, h2id⟩ := optParkPass_bound comms.features ids hdisj pk? 50 hk50 s1 h1id
    rw [← hs2] at h2sum h2id
    obtain ⟨h3sum, h3id⟩ := optPointPass_bound comms.features bumpTrafficSignals
      (fun c => c.trafficSignals) ids (fun c => rfl) (fun c => rfl) hdisj ts? 200 hk200 s2 h2id
    rw [← hs3] at h3sum h3id
    obtain ⟨h4sum, h4id⟩ := optPointPass_bound comms.features bumpLrtStops
      (fun c => c.lrtStops) ids (fun c => rfl) (fun c => rfl) hdisj lrt? 200 hk200 s3 h3id
    rw [← hs4] at h4sum h4id
    refine ⟨?_, ?_, ?_, ?_⟩
    · rw [optPointPass_proj (fun c => c.trafficIncidents) comms.features bumpLrtStops 200 hk200
          (fun c => rfl) lrt? s3,
        optPointPass_proj (fun c => c.trafficIncidents) comms.features bumpTrafficSignals 200
          hk200 (fun c => rfl) ts? s2,
        optParkPass_proj (fun c => c.trafficIncidents) comms.features 50 hk50 (fun c => rfl)
          pk? s1]
      exact (by omega : (s1.map (fun c => c.trafficIncidents)).sum ≤ collCount ti?)
    · rw [optPointPass_proj (fun c => c.parks) comms.features bumpLrtStops 200 hk200
          (fun c => rfl) lrt? s3,
        optPointPass_proj (fun c => c.parks) comms.features bumpTrafficSignals 200 hk200
          (fun c => rfl) ts? s2]
      have e1 : s1.map (fun c => c.parks) = s0.map (fun c => c.parks) :=
        optPointPass_proj (fun c => c.parks) comms.features bumpTrafficIncidents 100 hk100
          (fun c => rfl) ti? s0
      rw [e1] at h2sum
      exact (by omega : (s2.map (fun c => c.parks)).sum ≤ collCount pk?)
    · rw [optPointPass_proj (fun c => c.trafficSignals) comms.features bumpLrtStops 200 hk200
          (fun c => rfl) lrt? s3]
      have e1 : s1.map (fun c => c.trafficSignals) = s0.map (fun c => c.trafficSignals) :=
        optPointPass_proj (fun c => c.trafficSignals) comms.features bumpTrafficIncidents 100
          hk100 (fun c => rfl) ti? s0
      have e2 : s2.map (fun c => c.trafficSignals) = s1.map (fun c => c.trafficSignals) :=
        optParkPass_proj (fun c => c.trafficSignals) comms.features 50 hk50 (fun c => rfl)
          pk? s1
      rw [e2, e1] at h3sum
      exact (by omega : (s3.map (fun c => c.trafficSignals)).sum ≤ collCount ts?)
    · have e1 : s1.map (fun c => c.lrtStops) = s0.map (fun c => c.lrtStops) :=
        optPointPass_proj (fun c => c.lrtStops) comms.features bumpTrafficIncidents 100 hk100
          (fun c => rfl) ti? s0
      have e2 : s2.map (fun c => c.lrtStops) = s1.map (fun c => c.lrtStops) :=
        optParkPass_proj (fun c => c.lrtStops) comms.features 50 hk50 (fun c => rfl) pk? s1
      have e3 : s3.map (fun c => c.lrtStops) = s2.map (fun c => c.lrtStops) :=
        optPointPass_proj (fun c => c.lrtStops) comms.features bumpTrafficSignals 200 hk200
          (fun c => rfl) ts? s2
      rw [e3, e2, e1] at h4sum
      exact (by omega : (s4.map (fun c => c.lrtStops)).sum ≤ collCount lrt?)

/-- A second boundary with the same square geometry as exCommunity but id 2. -/
def c8Community2 : Feature :=
  ⟨⟨some 2, some "Annex", some "ANX", none, none, none⟩, some (exPolygonGeom 0 4)⟩

/-- Two boundaries covering the same square, and one incident inside both. -/
def c8Data : DataCache :=
  { communities := some ⟨[exCommunity, c8Community2]⟩
    trafficIncidents := some ⟨[exPointFeature 2 2]⟩ }

/-- C8 counterexample: with two boundary entries covering the same square,
the single traffic incident at (2,2) is counted once for each of them, so
the incident tallies sum to 2 although the source collection holds one
feature — the loops count one hit per community, not "the community" of
the point. -/
theorem c8_counterexample :
    ((calculateStatsPure c8Data).map (fun c => c.trafficIncidents)).sum = 2 ∧
    collCount c8Data.trafficIncidents = 1 :=
  ⟨by with_unfolding_all decide, rfl⟩

/-- One boundary, one incident: the disjointness hypothesis holds trivially. -/
def c8WitnessData : DataCache :=
  { communities := some ⟨[exCommunity]⟩
    trafficIncidents := some ⟨[exPointFeature 2 2]⟩ }

theorem c8_witness :
    (((calculateStatsPure c8WitnessData).map (fun c => c.trafficIncidents)).sum ≤
      collCount c8WitnessData.trafficIncidents) ∧
    (((calculateStatsPure c8WitnessData).map (fun c => c.parks)).sum ≤
      collCount c8WitnessData.parks) ∧
    (((calculateStatsPure c8WitnessData).map (fun c => c.trafficSignals)).sum ≤
      collCount c8WitnessData.trafficSignals) ∧
    (((calculateStatsPure c8WitnessData).map (fun c => c.lrtStops)).sum ≤
      collCount c8WitnessData.lrtStops) :=
  c8_theorem c8WitnessData
    (fun p => Nat.le_trans (List.countP_le_length _) (by decide))

/-- Spec-modelled predicate, following the claim's wording: the boundary's
name or code contains the term as a case-insensitive substring.  It is
compared with the source's communityMatchesTerm (which lowercases the term
once, outside the filter) in the C5 theorem. -/
def specMatchesTerm (term : String) (community : Feature) : Bool :=
  strIncludes (strToLower (community.properties.name.getD "")) (strToLower term) ||
  strIncludes (strToLower (community.properties.comm_code.getD "")) (strToLower term)

/-- Spec-modelled predicate, following the claim's wording: only the
statistics relevant to the given active dataset are computed; every metric
whose dataset family is not the active one is left at its zero value. -/
def specOnlyRelevantStats (al : Option String) (r : SearchResult) : Bool :=
  let l := al.getD ""
  (decide (l = "lrt" ∨ l = "lrt_lines" ∨ l = "lrt_stops") ||
    (r.lrtStops == 0 && r.lrtLines == 0)) &&
  (decide (l = "parks") || (r.parks == 0)) &&
  (decide (l = "traffic" ∨ l = "traffic_incidents") || (r.trafficIncidents == 0)) &&
  (decide (l = "traffic" ∨ l = "traffic_signals") || (r.trafficSignals == 0)) &&
  (decide (l = "flood_01_chance" ∨ l = "flood") || (r.floodRisk == false)) &&
  (decide (l = "major_roads") || (r.majorRoads == 0))

theorem calcLayer_relevant (w : World) (s : Session) (f : Feature) (layer : String) :
    ((layer = "lrt" ∨ layer = "lrt_lines" ∨ layer = "lrt_stops") ∨
      ((calculateLayerSpecificStats w s f layer).1.lrtStops = 0 ∧
       (calculateLayerSpecificStats w s f layer).1.lrtLines = 0)) ∧
    (layer = "parks" ∨ (calculateLayerSpecificStats w s f layer).1.parks = 0) ∧
    ((layer = "traffic" ∨ layer = "traffic_incidents") ∨
      (calculateLayerSpecificStats w s f layer).1.trafficIncidents = 0) ∧
    ((layer = "traffic" ∨ layer = "traffic_signals") ∨
      (calculateLayerSpecificStats w s f layer).1.trafficSignals = 0) ∧
    ((layer = "flood_01_chance" ∨ layer = "flood") ∨
      (calculateLayerSpecificStats w s f layer).1.floodRisk = false) ∧
    (layer = "major_roads" ∨ (calculateLayerSpecificStats w s f layer).1.majorRoads = 0) := by
  rcases hld : loadAllData w s (requiredFilesFor layer) with ⟨data, s1⟩
  simp only [calculateLayerSpecificStats, hld]
  refine ⟨?_, ?_, ?_, ?_, ?_, ?_⟩
  · by_cases h : layer = "lrt" ∨ layer = "lrt_lines" ∨ layer = "lrt_stops"
    · exact Or.inl h
    · exact Or.inr ⟨by rw [if_neg h], by rw [if_neg h]⟩
  · by_cases h : layer = "parks"
    · exact Or.inl h
    · exact Or.inr (by rw [if_neg h])
  · by_cases h : layer = "traffic" ∨ layer = "traffic_incidents"
    · exact Or.inl h
    · exact Or.inr (by rw [if_neg h])
  · by_cases h : layer = "traffic" ∨ layer = "traffic_signals"
    · exact Or.inl h
    · exact Or.inr (by rw [if_neg h])
  · by_cases h : layer = "flood_01_chance" ∨ layer = "flood"
    · exact Or.inl h
    · exact Or.inr (by rw [if_neg h])
  · by_cases h : layer = "major_roads"
    · exact Or.inl h
    · exact Or.inr (by rw [if_neg h])

theorem resultFor_relevant (w : World) (s : Session) (al : Option String) (f : Feature) :
    specOnlyRelevantStats al ((resultFor w s al f).1) = true := by
  cases al with
  | none => rfl
  | some layer =>
    by_cases hl : layer = ""
    · subst hl
      rfl
    · obtain ⟨h1, h2, h3, h4, h5, h6⟩ := calcLayer_relevant w s f layer
      rcases hls : calculateLayerSpecificStats w s f layer with ⟨ls, s1⟩
      simp only [hls] at h1 h2 h3 h4 h5 h6
      simp only [resultFor, if_neg hl, hls]
      simp only [specOnlyRelevantStats, Option.getD_some, Bool.and_eq_true, Bool.or_eq_true,
        decide_eq_true_eq, beq_iff_eq]
      exact ⟨⟨⟨⟨⟨h1, h2⟩, h3⟩, h4⟩, h5⟩, h6⟩

theorem resultFor_proj (w : World) (s : Session) (al : Option String) (f : Feature) :
    (resultFor w s al f).1.id = f.properties.id ∧
    (resultFor w s al f).1.name = f.properties.name.getD "" ∧
    (resultFor w s al f).1.code = f.properties.comm_code.getD "" := by
  cases al with
  | none => exact ⟨rfl, rfl, rfl⟩
  | some layer =>
    by_cases hl : layer = ""
    · subst hl
      exact ⟨rfl, rfl, rfl⟩
    · rcases hls : calculateLayerSpecificStats w s f layer with ⟨ls, s1⟩
      simp [resultFor, if_neg hl, hls]

theorem searchResultsLoop_proj (w : World) (al : Option String) :
    ∀ (fs : List Feature) (s : Session),
      (searchResultsLoop w al s fs).1.map (fun r => (r.id, r.name, r.code)) =
        fs.map (fun f =>
          (f.properties.id, f.properties.name.getD "", f.properties.comm_code.getD "")) := by
  intro fs
  induction fs with
  | nil => intro s; rfl
  | cons f fs ih =>
    intro s
    simp only [searchResultsLoop]
    rcases hr : resultFor w s al f with ⟨r, s1⟩
    rcases hloop : searchResultsLoop w al s1 fs with ⟨rs, s2⟩
    have e := resultFor_proj w s al f
    simp only [hr] at e
    have ihs := ih s1
    simp only [hloop] at ihs
    simp only [hr, hloop, List.map_cons, ihs, e.1, e.2.1, e.2.2]

theorem searchResultsLoop_relevant (w : World) (al : Option String) :
    ∀ (fs : List Feature) (s : Session) (r : SearchResult),
      r ∈ (searchResultsLoop w al s fs).1 → specOnlyRelevantStats al r = true := by
  intro fs
  induction fs with
  | nil =>
    intro s r hmem
    simp only [searchResultsLoop, List.not_mem_nil] at hmem
  | cons f fs ih =>
    intro s r hmem
    simp only [searchResultsLoop] at hmem
    rcases hr : resultFor w s al f with ⟨r0, s1⟩
    rcases hloop : searchResultsLoop w al s1 fs with ⟨rs, s2⟩
    simp only [hr, hloop, List.mem_cons] at hmem
    rcases hmem with h | h
    · subst h
      have := resultFor_relevant w s al f
      simp only [hr] at this
      exact this
    · exact ih s1 r (by rw [hloop]; exact h)

/-- C5: for a term of length at least 2, and provided the boundary
collection loads, searchCommunities returns exactly the boundaries whose
name or code contains the term case-insensitively, in original order and
truncated to 10 (witnessed on the id, name and code projections), every
returned record carries nonzero statistics only for the active dataset,
and the spec's matching predicate coincides with the source's. -/
theorem c5_theorem (w : World) (s : Session) (t : String) (al : Option String)
    (coll : FeatureCollection) (s1 : Session)
    (hterm : 2 ≤ t.length)
    (hload : loadCommunitiesOnly w s = (some coll, s1)) :
    ((searchCommunities w s (some t) al).1.map (fun r => (r.id, r.name, r.code)) =
      ((coll.features.filter (specMatchesTerm t)).take 10).map
        (fun f =>
          (f.properties.id, f.properties.name.getD "", f.properties.comm_code.getD ""))) ∧
    (searchCommunities w s (some t) al).1.length ≤ 10 ∧
    (∀ r ∈ (searchCommunities w s (some t) al).1, specOnlyRelevantStats al r = true) ∧
    (∀ f, specMatchesTerm t f = communityMatchesTerm (strToLower t) f) := by
  have hnl : ¬ t.length < 2 := Nat.not_lt.mpr hterm
  have hfilter : coll.features.filter (specMatchesTerm t) =
      coll.features.filter (communityMatchesTerm (strToLower t)) :=
    List.filter_congr (fun f _ => rfl)
  simp only [searchCommunities, if_neg hnl, hload]
  refine ⟨?_, ?_, ?_, fun f => rfl⟩
  · rw [searchResultsLoop_proj w al ((coll.features.filter (communityMatchesTerm (strToLower t))).take 10) s1,
      hfilter]
  · have hlen := congrArg List.length
      (searchResultsLoop_proj w al ((coll.features.filter (communityMatchesTerm (strToLower t))).take 10) s1)
    simp only [List.length_map] at hlen
    rw [hlen]
    have h10 := List.length_take 10 (coll.features.filter (communityMatchesTerm (strToLower t)))
    omega
  · intro r hmem
    exact searchResultsLoop_relevant w al
      ((coll.features.filter (communityMatchesTerm (strToLower t))).take 10) s1 r hmem

/-- A boundary collection holding the one example community. -/
def c5Coll : FeatureCollection := ⟨[exCommunity]⟩

/-- A session whose field cache already holds the boundaries, so a search
needs no fetch at all. -/
def c5Session : Session := ⟨[], { communities := some c5Coll }, 0⟩

/-- C5 counterexample: the one-character term "a" occurs in the name
"Panorama Hills" (case-insensitively) and the boundary collection loads
from the session cache, yet searchCommunities answers the empty list: the
early return for terms shorter than 2 characters (communityStats.js:792)
wins over the advertised substring semantics. -/
theorem c5_counterexample :
    (searchCommunities ⟨[]⟩ c5Session (some "a") none).1 = [] ∧
    ((c5Coll.features.filter (specMatchesTerm "a")).take 10).length = 1 ∧
    loadCommunitiesOnly ⟨[]⟩ c5Session = (some c5Coll, c5Session) :=
  ⟨rfl, by decide, rfl⟩

theorem c5_witness :
    (2 ≤ "pan".length) ∧
    loadCommunitiesOnly ⟨[]⟩ c5Session = (some c5Coll, c5Session) ∧
    (((searchCommunities ⟨[]⟩ c5Session (some "pan") none).1.map
        (fun r => (r.id, r.name, r.code)) =
      ((c5Coll.features.filter (specMatchesTerm "pan")).take 10).map
        (fun f =>
          (f.properties.id, f.properties.name.getD "", f.properties.comm_code.getD ""))) ∧
    (searchCommunities ⟨[]⟩ c5Session (some "pan") none).1.length ≤ 10 ∧
    (∀ r ∈ (searchCommunities ⟨[]⟩ c5Session (some "pan") none).1,
      specOnlyRelevantStats none r = true) ∧
    (∀ f, specMatchesTerm "pan" f = communityMatchesTerm (strToLower "pan") f)) :=
  ⟨by decide, rfl, c5_theorem ⟨[]⟩ c5Session "pan" none c5Coll c5Session (by decide) rfl⟩

end UrbanInsight
